import Mathlib

/-!
Shallow embedding of the Discord ticket bot (src/bot.py).

The six store tables (`users`, `tickets`, `transcripts`, `ticket_stats`,
`ticket_setups`, `archived_tickets`) are modelled as lists of rows, and the
guild state touched by the registry operations (members, category containers,
channels with per-user permission overwrites) as a `Guild` value.  Timestamps
are natural numbers at day granularity.  External effects are explicit inputs:
the Pastebin upload result is an `Option String` (`none` = upload failed), an
uncaught `channel.send` failure in the inactivity sweep is a `sendFails`
oracle, a failing `channel.delete` in the archive sweep is a `deleteFails`
oracle, and `fetch_message` outcomes come from a `MsgWorld` (found with or
without its interactive components, 404, or another logged error).
-/

namespace TicketBot

/-- A row of the `tickets` table (primary key `channel_id`, `ticket_id` UNIQUE). -/
structure Ticket where
  channel_id : Nat
  ticket_id : String
  user_id : Nat
  ticket_type : String
  claimed_by : Option Nat
  closed : Bool
  created_at : Nat
  last_activity : Nat
  additional_users : List Nat
deriving DecidableEq

/-- A row of the `users` table (primary key `user_id`). -/
structure UserRow where
  user_id : Nat
  display_name : String
  last_seen : Nat
deriving DecidableEq

/-- A row of the `transcripts` table (primary key `channel_id`). -/
structure Transcript where
  channel_id : Nat
  paste_url : Option String
  closed_at : Nat
  closed_by : Nat
deriving DecidableEq

/-- A row of the `ticket_stats` table (primary key `date`). -/
structure StatRow where
  date : Nat
  opened : Nat
  closed : Nat
  claimed : Nat
deriving DecidableEq

/-- A row of the `ticket_setups` table (primary key `channel_id`). -/
structure TicketSetup where
  channel_id : Nat
  message_id : Nat
deriving DecidableEq

/-- A row of the `archived_tickets` table (primary key `channel_id`). -/
structure ArchivedTicket where
  channel_id : Nat
  ticket_id : String
  delete_at : Nat
deriving DecidableEq

/-- The whole persistent store. -/
structure DB where
  users : List UserRow
  tickets : List Ticket
  transcripts : List Transcript
  stats : List StatRow
  setups : List TicketSetup
  archived : List ArchivedTicket
deriving DecidableEq

/-- A per-user permission overwrite (`read_messages`, `send_messages`). -/
structure Perm where
  read : Bool
  send : Bool
deriving DecidableEq

/-- A guild text channel: its category container, the `@everyone`
`read_messages` setting, and the per-user overwrites. -/
structure Chan where
  id : Nat
  category : Option String
  defaultRead : Bool
  overwrites : List (Nat × Perm)
deriving DecidableEq

/-- The guild state the bot manipulates. -/
structure Guild where
  members : List Nat
  categories : List String
  channels : List Chan
deriving DecidableEq

def Guild.getChannel (g : Guild) (cid : Nat) : Option Chan :=
  g.channels.find? (fun c => c.id == cid)

/-- `channel.set_permissions(user, ...)`: upsert the user's overwrite. -/
def Chan.setPerm (c : Chan) (uid : Nat) (p : Perm) : Chan :=
  if (c.overwrites.lookup uid).isSome then
    { c with overwrites := c.overwrites.map (fun e => if e.1 == uid then (uid, p) else e) }
  else
    { c with overwrites := c.overwrites ++ [(uid, p)] }

/-- Effective readability of a channel for a user: the user overwrite if one
exists, the `@everyone` default otherwise. -/
def Chan.effRead (c : Chan) (uid : Nat) : Bool :=
  match c.overwrites.lookup uid with
  | some p => p.read
  | none => c.defaultRead

def Guild.updateChannel (g : Guild) (cid : Nat) (f : Chan → Chan) : Guild :=
  { g with channels := g.channels.map (fun c => if c.id == cid then f c else c) }

/-- The configured ticket categories (key, display name). -/
def TICKET_CATEGORIES : List (String × String) :=
  [("reportPlayer", "Report a Player"), ("reportBug", "Report Bug"),
   ("buyBusiness", "Buy a Business"), ("buyEDM", "Buy EDMs"),
   ("bookAuction", "Book an Auction Ticket"), ("other", "Other Issues")]

def INACTIVE_CLOSE_DAYS : Nat := 3

def ARCHIVE_DELETE_DAYS : Nat := 10

/-- `track_user`: upsert the author into the `users` table. -/
def track_user (db : DB) (uid : Nat) (name : String) (now : Nat) : DB :=
  if db.users.any (fun u => u.user_id == uid) then
    { db with users := db.users.map (fun u =>
        if u.user_id == uid then { u with display_name := name, last_seen := now } else u) }
  else
    { db with users := db.users ++ [⟨uid, name, now⟩] }

inductive StatAction
  | opened
  | closed
  | claimed
deriving DecidableEq

def StatAction.bump (a : StatAction) (s : StatRow) : StatRow :=
  match a with
  | .opened => { s with opened := s.opened + 1 }
  | .closed => { s with closed := s.closed + 1 }
  | .claimed => { s with claimed := s.claimed + 1 }

/-- `log_ticket_stat`: additive upsert into the day's `ticket_stats` bucket. -/
def log_ticket_stat (db : DB) (today : Nat) (a : StatAction) : DB :=
  if db.stats.any (fun s => s.date == today) then
    { db with stats := db.stats.map (fun s => if s.date == today then a.bump s else s) }
  else
    { db with stats := db.stats ++ [a.bump ⟨today, 0, 0, 0⟩] }

/-- `create_transcript`: the Pastebin upload result is the `upload` input
(`none` = upload failed or errored).  The source stores a `transcripts` row
(an upsert on `channel_id`) only under `if paste_url:`, so nothing is
persisted when the upload fails. -/
def create_transcript (db : DB) (cid : Nat) (closer : Nat) (upload : Option String)
    (now : Nat) : DB × Option String :=
  match upload with
  | some url =>
      if db.transcripts.any (fun t => t.channel_id == cid) then
        ({ db with transcripts := db.transcripts.map (fun t =>
            if t.channel_id == cid then ⟨cid, some url, now, closer⟩ else t) }, some url)
      else
        ({ db with transcripts := db.transcripts ++ [⟨cid, some url, now, closer⟩] }, some url)
  | none => (db, none)

inductive CreateResult
  | duplicateOpen (channelId : Nat)
  | created (channelId : Nat) (ticketId : String)
  | errored
deriving DecidableEq

/-- `TICKET_CATEGORIES[ticket_type]["name"]`; the UI only supplies configured
keys, so the default is unreachable from the dropdown. -/
def ticketCategoryName (ttype : String) : String :=
  (TICKET_CATEGORIES.lookup ttype).getD ""

/-- `discord.utils.get(guild.categories, name=...) or guild.create_category`:
create-if-absent of a category container. -/
def ensureCategory (g : Guild) (name : String) : Guild :=
  if g.categories.contains name then g else { g with categories := g.categories ++ [name] }

/-- The creation path of `create_ticket` after the duplicate-open check:
category create-if-absent, channel creation with default deny and an owner
grant, the `tickets` INSERT (which raises on a `channel_id`/`ticket_id`
uniqueness violation; the surrounding `except` then reports a generic error
and no row is inserted, leaving the just-created channel orphaned), and the
`opened` stat.  `genId` is the value produced by `generate_ticket_id` and
`newChanId` the id of the channel the platform creates. -/
def create_ticket_fresh (db : DB) (g : Guild) (user : Nat) (ttype : String)
    (genId : String) (newChanId : Nat) (now today : Nat) : DB × Guild × CreateResult :=
  let g₁ := ensureCategory g (ticketCategoryName ttype)
  let chan : Chan := ⟨newChanId, some (ticketCategoryName ttype), false, [(user, ⟨true, true⟩)]⟩
  let g₂ := { g₁ with channels := g₁.channels ++ [chan] }
  if db.tickets.any (fun r => r.channel_id == newChanId || r.ticket_id == genId) then
    (db, g₂, .errored)
  else
    let row : Ticket := ⟨newChanId, genId, user, ttype, none, false, now, now, []⟩
    (log_ticket_stat { db with tickets := db.tickets ++ [row] } today .opened, g₂,
      .created newChanId genId)

/-- `create_ticket`: track the user, then the duplicate-open check.  The
source only reports the existing ticket (and returns) when the existing row's
channel is still known to the guild; when `guild.get_channel` returns `None`
it falls through and creates a fresh ticket. -/
def create_ticket (db : DB) (g : Guild) (user : Nat) (userName : String)
    (ttype : String) (genId : String) (newChanId : Nat) (now today : Nat) :
    DB × Guild × CreateResult :=
  let db₁ := track_user db user userName now
  match db₁.tickets.find? (fun t => t.user_id == user && t.closed == false) with
  | some t =>
      match g.getChannel t.channel_id with
      | some _ => (db₁, g, .duplicateOpen t.channel_id)
      | none => create_ticket_fresh db₁ g user ttype genId newChanId now today
  | none => create_ticket_fresh db₁ g user ttype genId newChanId now today

/-- Outcome of `channel.fetch_message`. -/
inductive FetchResult
  | notFound
  | found (hasComponents : Bool)
  | err
deriving DecidableEq

/-- The message world: what fetching message `mid` in channel `cid` yields. -/
structure MsgWorld where
  fetch : Nat → Nat → FetchResult

/-- `message.edit(view=TicketView())`: afterwards the message has components. -/
def MsgWorld.attachView (w : MsgWorld) (cid mid : Nat) : MsgWorld :=
  ⟨fun c m => if c == cid && m == mid then .found true else w.fetch c m⟩

/-- State threaded through the reconciliation loops, with the performed
message edits recorded. -/
structure RestoreState where
  db : DB
  w : MsgWorld
  edits : List (Nat × Nat)

/-- `DELETE FROM ticket_setups WHERE channel_id = $1`. -/
def deleteSetup (db : DB) (cid : Nat) : DB :=
  { db with setups := db.setups.filter (fun s => !(s.channel_id == cid)) }

/-- One iteration of the `restore_ticket_views` loop (startup reconciliation):
skip unknown channels; on fetch 404 delete the pointer; on success re-attach
the view unconditionally; other fetch errors are logged and skipped. -/
def restore_views_step (g : Guild) (st : RestoreState) (s : TicketSetup) : RestoreState :=
  match g.getChannel s.channel_id with
  | none => st
  | some _ =>
      match st.w.fetch s.channel_id s.message_id with
      | .notFound => ⟨deleteSetup st.db s.channel_id, st.w, st.edits⟩
      | .found _ =>
          ⟨st.db, st.w.attachView s.channel_id s.message_id,
            st.edits ++ [(s.channel_id, s.message_id)]⟩
      | .err => st

/-- `restore_ticket_views`, run once on startup over the `ticket_setups`
rows fetched up front. -/
def restore_ticket_views (g : Guild) (db : DB) (w : MsgWorld) : RestoreState :=
  db.setups.foldl (restore_views_step g) ⟨db, w, []⟩

/-- One iteration of the `restore_ticket_creation_view` loop: like the startup
variant, but the edit happens only `if not message.components`. -/
def restore_creation_step (g : Guild) (st : RestoreState) (s : TicketSetup) : RestoreState :=
  match g.getChannel s.channel_id with
  | none => st
  | some _ =>
      match st.w.fetch s.channel_id s.message_id with
      | .notFound => ⟨deleteSetup st.db s.channel_id, st.w, st.edits⟩
      | .found true => st
      | .found false =>
          ⟨st.db, st.w.attachView s.channel_id s.message_id,
            st.edits ++ [(s.channel_id, s.message_id)]⟩
      | .err => st

/-- `restore_ticket_creation_view`, invoked at the end of every manual close. -/
def restore_ticket_creation_view (g : Guild) (db : DB) (w : MsgWorld) : RestoreState :=
  db.setups.foldl (restore_creation_step g) ⟨db, w, []⟩

inductive CloseResult
  | notOpenTicket
  | noPermission
  | closedOk (pasteUrl : Option String)
deriving DecidableEq

/-- `UPDATE tickets SET closed = TRUE WHERE channel_id = $1`. -/
def closeTicketRow (rows : List Ticket) (cid : Nat) : List Ticket :=
  rows.map (fun r => if r.channel_id == cid then { r with closed := true } else r)

/-- `handle_close_ticket`: look up the open ticket at the channel, check the
closer is staff or the owner, write the transcript (see `create_transcript`),
move the channel under "Archived Tickets" with default deny, mark the row
closed, schedule the archived-deletion row, bump the `closed` stat, and run
`restore_ticket_creation_view`.  The closure embed, the DM to the creator and
the control-message cleanup carry no store or guild state. -/
def handle_close_ticket (db : DB) (g : Guild) (w : MsgWorld) (cid : Nat)
    (user : Nat) (userIsStaff : Bool) (upload : Option String) (now today : Nat) :
    DB × Guild × MsgWorld × CloseResult :=
  match db.tickets.find? (fun t => t.channel_id == cid && t.closed == false) with
  | none => (db, g, w, .notOpenTicket)
  | some t =>
      if !(userIsStaff || user == t.user_id) then (db, g, w, .noPermission)
      else
        let p := create_transcript db cid user upload now
        let g₁ := ensureCategory g "Archived Tickets"
        let g₂ := g₁.updateChannel cid (fun c =>
          { c with category := some "Archived Tickets", defaultRead := false })
        let db₂ := { p.1 with tickets := closeTicketRow p.1.tickets cid }
        let db₃ := { db₂ with
          archived := db₂.archived ++ [⟨cid, t.ticket_id, now + ARCHIVE_DELETE_DAYS⟩] }
        let db₄ := log_ticket_stat db₃ today .closed
        let st := restore_ticket_creation_view g₂ db₄ w
        (st.db, g₂, st.w, .closedOk p.2)

/-- Loop body of `auto_close_tickets` for one selected ticket.  A missing
channel skips the whole body.  `sendFails cid` models `channel.send` raising;
that exception is not caught inside the loop, so the body stops there — the
transcript upsert, which runs earlier, survives, while the row stays open.
Only the DM is wrapped in its own try/except (state-free, not modelled).
Returns the new state plus whether the body raised. -/
def auto_close_step (g : Guild) (db : DB) (sendFails : Nat → Bool)
    (uploads : Nat → Option String) (botId now today : Nat) (t : Ticket) :
    DB × Guild × Bool :=
  match g.getChannel t.channel_id with
  | none => (db, g, false)
  | some _ =>
      let p := create_transcript db t.channel_id botId (uploads t.channel_id) now
      if sendFails t.channel_id then (p.1, g, true)
      else
        let g₁ := ensureCategory g "Archived Tickets"
        let g₂ := g₁.updateChannel t.channel_id (fun c =>
          { c with category := some "Archived Tickets", defaultRead := false })
        let db₂ := { p.1 with tickets := closeTicketRow p.1.tickets t.channel_id }
        let db₃ := { db₂ with
          archived := db₂.archived ++ [⟨t.channel_id, t.ticket_id, now + ARCHIVE_DELETE_DAYS⟩] }
        (log_ticket_stat db₃ today .closed, g₂, false)

/-- The `for ticket in inactive_tickets` loop: no per-item try/except, so the
first raised exception aborts the remaining iterations of this run.  The
`Bool` of the result records whether the run aborted. -/
def auto_close_loop (sendFails : Nat → Bool) (uploads : Nat → Option String)
    (botId now today : Nat) : DB → Guild → List Ticket → DB × Guild × Bool
  | db, g, [] => (db, g, false)
  | db, g, t :: rest =>
      let r := auto_close_step g db sendFails uploads botId now today t
      if r.2.2 then (r.1, r.2.1, true)
      else auto_close_loop sendFails uploads botId now today r.1 r.2.1 rest

def inactiveCutoff (now : Nat) : Nat := now - INACTIVE_CLOSE_DAYS

/-- `auto_close_tickets`: select every open ticket whose `last_activity` is
older than the cutoff (queried once up front), then run the loop. -/
def auto_close_tickets (db : DB) (g : Guild) (sendFails : Nat → Bool)
    (uploads : Nat → Option String) (botId now today : Nat) : DB × Guild × Bool :=
  auto_close_loop sendFails uploads botId now today db g
    (db.tickets.filter (fun t =>
      t.closed == false && decide (t.last_activity < inactiveCutoff now)))

/-- Loop body of `delete_archived_tickets` for one due row: delete the channel
if still known (`NotFound` passes, any other exception — `deleteFails` — is
logged and the body continues), then delete the `archived_tickets` row by
`channel_id` and the `tickets` row by `ticket_id`. -/
def delete_archived_step (deleteFails : Nat → Bool) (st : DB × Guild)
    (a : ArchivedTicket) : DB × Guild :=
  let g₁ :=
    match st.2.getChannel a.channel_id with
    | none => st.2
    | some _ =>
        if deleteFails a.channel_id then st.2
        else { st.2 with channels := st.2.channels.filter (fun c => !(c.id == a.channel_id)) }
  let db₁ := { st.1 with
    archived := st.1.archived.filter (fun x => !(x.channel_id == a.channel_id)) }
  ({ db₁ with tickets := db₁.tickets.filter (fun t => !(t.ticket_id == a.ticket_id)) }, g₁)

/-- `delete_archived_tickets`: select every archived row with
`delete_at <= now` (queried once up front) and process each. -/
def delete_archived_tickets (db : DB) (g : Guild) (deleteFails : Nat → Bool)
    (now : Nat) : DB × Guild :=
  (db.archived.filter (fun a => decide (a.delete_at ≤ now))).foldl
    (delete_archived_step deleteFails) (db, g)

inductive ClaimResult
  | noPermission
  | notOpenTicket
  | alreadyClaimedBySelf
  | alreadyClaimedByOther (claimant : Nat)
  | raisedAttributeError
  | claimedOk
deriving DecidableEq

/-- `handle_claim_ticket`: track the user, require staff, look up the open
ticket.  If `claimed_by` is set: same user → "already claimed" notice; a
different user → `guild.get_member(claimed_by)` followed by `.mention`, which
raises `AttributeError` when the claimant has left the guild (the `None`
case), reported upstream as a generic error.  Otherwise set `claimed_by` and
bump the `claimed` stat. -/
def handle_claim_ticket (db : DB) (g : Guild) (cid : Nat) (user : Nat)
    (userName : String) (userIsStaff : Bool) (now today : Nat) : DB × ClaimResult :=
  let db₁ := track_user db user userName now
  if !userIsStaff then (db₁, .noPermission)
  else
    match db₁.tickets.find? (fun t => t.channel_id == cid && t.closed == false) with
    | none => (db₁, .notOpenTicket)
    | some t =>
        match t.claimed_by with
        | some c =>
            if c == user then (db₁, .alreadyClaimedBySelf)
            else if g.members.contains c then (db₁, .alreadyClaimedByOther c)
            else (db₁, .raisedAttributeError)
        | none =>
            let db₂ := { db₁ with tickets := db₁.tickets.map (fun r =>
                if r.channel_id == cid then { r with claimed_by := some user } else r) }
            (log_ticket_stat db₂ today .claimed, .claimedOk)

inductive AddResult
  | notOpenTicket
  | alreadyHasAccess
  | addedOk
deriving DecidableEq

/-- `add_user_to_ticket`: reject when the target is the owner or already in
`additional_users`; otherwise `array_append` and grant read/send. -/
def add_user_to_ticket (db : DB) (g : Guild) (cid target : Nat) :
    DB × Guild × AddResult :=
  match db.tickets.find? (fun t => t.channel_id == cid && t.closed == false) with
  | none => (db, g, .notOpenTicket)
  | some t =>
      if target == t.user_id || t.additional_users.contains target then
        (db, g, .alreadyHasAccess)
      else
        let db₁ := { db with tickets := db.tickets.map (fun r =>
            if r.channel_id == cid then
              { r with additional_users := r.additional_users ++ [target] } else r) }
        (db₁, g.updateChannel cid (fun c => c.setPerm target ⟨true, true⟩), .addedOk)

inductive RemoveResult
  | notOpenTicket
  | cannotRemoveOwner
  | notParticipant
  | removedOk
deriving DecidableEq

/-- `remove_user_from_ticket`: reject the owner and non-participants;
otherwise `array_remove` (all occurrences) and set an explicit deny. -/
def remove_user_from_ticket (db : DB) (g : Guild) (cid target : Nat) :
    DB × Guild × RemoveResult :=
  match db.tickets.find? (fun t => t.channel_id == cid && t.closed == false) with
  | none => (db, g, .notOpenTicket)
  | some t =>
      if target == t.user_id then (db, g, .cannotRemoveOwner)
      else if !(t.additional_users.contains target) then (db, g, .notParticipant)
      else
        let db₁ := { db with tickets := db.tickets.map (fun r =>
            if r.channel_id == cid then
              { r with additional_users :=
                  r.additional_users.filter (fun u => !(u == target)) }
            else r) }
        (db₁, g.updateChannel cid (fun c => c.setPerm target ⟨false, false⟩), .removedOk)

/-- `on_message`: bot authors return immediately; otherwise, if the channel
has a `tickets` row (closed or not — the EXISTS query has no `closed`
filter), track the author and bump the row's `last_activity`. -/
def on_message (db : DB) (authorIsBot : Bool) (author : Nat) (authorName : String)
    (cid now : Nat) : DB :=
  if authorIsBot then db
  else if db.tickets.any (fun t => t.channel_id == cid) then
    let db₁ := track_user db author authorName now
    { db₁ with tickets := db₁.tickets.map (fun t =>
        if t.channel_id == cid then { t with last_activity := now } else t) }
  else db

/-! ### Field-preservation helper lemmas -/

theorem track_user_tickets (db : DB) (uid : Nat) (name : String) (now : Nat) :
    (track_user db uid name now).tickets = db.tickets := by
  unfold track_user; split <;> rfl

theorem track_user_stats (db : DB) (uid : Nat) (name : String) (now : Nat) :
    (track_user db uid name now).stats = db.stats := by
  unfold track_user; split <;> rfl

theorem track_user_transcripts (db : DB) (uid : Nat) (name : String) (now : Nat) :
    (track_user db uid name now).transcripts = db.transcripts := by
  unfold track_user; split <;> rfl

theorem track_user_archived (db : DB) (uid : Nat) (name : String) (now : Nat) :
    (track_user db uid name now).archived = db.archived := by
  unfold track_user; split <;> rfl

theorem track_user_has_user (db : DB) (uid : Nat) (name : String) (now : Nat) :
    ∃ u ∈ (track_user db uid name now).users, u.user_id = uid := by
  unfold track_user
  by_cases h : db.users.any (fun u => u.user_id == uid) = true
  · obtain ⟨u, hu, hbeq⟩ := List.any_eq_true.mp h
    rw [if_pos h]
    refine ⟨{ u with display_name := name, last_seen := now }, ?_, ?_⟩
    · have := List.mem_map_of_mem
        (fun u : UserRow =>
          if u.user_id == uid then { u with display_name := name, last_seen := now } else u) hu
      simpa [hbeq] using this
    · simpa using hbeq
  · rw [if_neg h]
    exact ⟨⟨uid, name, now⟩, by simp, rfl⟩

theorem log_stat_tickets (db : DB) (d : Nat) (a : StatAction) :
    (log_ticket_stat db d a).tickets = db.tickets := by
  unfold log_ticket_stat; split <;> rfl

theorem log_stat_transcripts (db : DB) (d : Nat) (a : StatAction) :
    (log_ticket_stat db d a).transcripts = db.transcripts := by
  unfold log_ticket_stat; split <;> rfl

theorem log_stat_archived (db : DB) (d : Nat) (a : StatAction) :
    (log_ticket_stat db d a).archived = db.archived := by
  unfold log_ticket_stat; split <;> rfl

theorem create_transcript_tickets (db : DB) (cid closer : Nat) (up : Option String)
    (now : Nat) : (create_transcript db cid closer up now).1.tickets = db.tickets := by
  cases up with
  | none => rfl
  | some url =>
      by_cases h : db.transcripts.any (fun t => t.channel_id == cid) = true <;>
        simp [create_transcript, h]

theorem create_transcript_archived (db : DB) (cid closer : Nat) (up : Option String)
    (now : Nat) : (create_transcript db cid closer up now).1.archived = db.archived := by
  cases up with
  | none => rfl
  | some url =>
      by_cases h : db.transcripts.any (fun t => t.channel_id == cid) = true <;>
        simp [create_transcript, h]

theorem create_transcript_none (db : DB) (cid closer : Nat) (now : Nat) :
    create_transcript db cid closer none now = (db, none) := rfl

theorem ensureCategory_channels (g : Guild) (n : String) :
    (ensureCategory g n).channels = g.channels := by
  unfold ensureCategory; split <;> rfl

/-- `find?` commutes with a map that does not change the predicate's verdict. -/
theorem find?_map_of_pred {α : Type} (p : α → Bool) (f : α → α)
    (hf : ∀ a, p (f a) = p a) (l : List α) :
    (l.map f).find? p = (l.find? p).map f := by
  induction l with
  | nil => rfl
  | cons a l ih =>
      rw [List.map_cons]
      by_cases hpa : p a = true
      · rw [List.find?_cons_of_pos _ ((hf a).trans hpa), List.find?_cons_of_pos _ hpa]
        rfl
      · rw [List.find?_cons_of_neg _ (by rw [hf a]; exact hpa),
          List.find?_cons_of_neg _ hpa, ih]

/-- Fields of the store other than `ticket_setups` are untouched by one step
of `restore_ticket_creation_view`. -/
theorem restore_creation_step_fields (g : Guild) (st : RestoreState) (s : TicketSetup) :
    (restore_creation_step g st s).db.tickets = st.db.tickets ∧
    (restore_creation_step g st s).db.transcripts = st.db.transcripts ∧
    (restore_creation_step g st s).db.archived = st.db.archived ∧
    (restore_creation_step g st s).db.stats = st.db.stats := by
  unfold restore_creation_step
  cases hg : g.getChannel s.channel_id with
  | none => exact ⟨rfl, rfl, rfl, rfl⟩
  | some ch =>
      cases hf : st.w.fetch s.channel_id s.message_id with
      | notFound => exact ⟨rfl, rfl, rfl, rfl⟩
      | found b => cases b <;> exact ⟨rfl, rfl, rfl, rfl⟩
      | err => exact ⟨rfl, rfl, rfl, rfl⟩

/-- Fields of the store other than `ticket_setups` are untouched by
`restore_ticket_creation_view`. -/
theorem creation_fold_fields (g : Guild) (pend : List TicketSetup) :
    ∀ st : RestoreState,
      (pend.foldl (restore_creation_step g) st).db.tickets = st.db.tickets ∧
      (pend.foldl (restore_creation_step g) st).db.transcripts = st.db.transcripts ∧
      (pend.foldl (restore_creation_step g) st).db.archived = st.db.archived ∧
      (pend.foldl (restore_creation_step g) st).db.stats = st.db.stats := by
  induction pend with
  | nil => intro st; exact ⟨rfl, rfl, rfl, rfl⟩
  | cons s rest ih =>
      intro st
      have h1 := restore_creation_step_fields g st s
      have h2 := ih (restore_creation_step g st s)
      refine ⟨?_, ?_, ?_, ?_⟩ <;> simp only [List.foldl_cons]
      · exact h2.1.trans h1.1
      · exact h2.2.1.trans h1.2.1
      · exact h2.2.2.1.trans h1.2.2.1
      · exact h2.2.2.2.trans h1.2.2.2

theorem restore_creation_view_fields (g : Guild) (db : DB) (w : MsgWorld) :
    (restore_ticket_creation_view g db w).db.tickets = db.tickets ∧
    (restore_ticket_creation_view g db w).db.transcripts = db.transcripts ∧
    (restore_ticket_creation_view g db w).db.archived = db.archived ∧
    (restore_ticket_creation_view g db w).db.stats = db.stats :=
  creation_fold_fields g db.setups ⟨db, w, []⟩

/-! ### Shared sample data for witnesses and counterexamples -/

/-- An open, unclaimed ticket row in channel 10 owned by user 1. -/
def rowOpen : Ticket := ⟨10, "AAAA0000", 1, "other", none, false, 0, 0, []⟩

/-- A closed ticket row in channel 10 owned by user 1. -/
def rowClosed : Ticket := ⟨10, "AAAA0000", 1, "other", none, true, 0, 0, []⟩

/-- A live ticket channel with id 10, default deny, owner grant for user 1. -/
def chan10 : Chan := ⟨10, some "Other Issues", false, [(1, ⟨true, true⟩)]⟩

/-! ### C10 -/

/-- C10: a message from a bot author causes no store mutation at all; a
message from a non-bot author in a channel that has a `tickets` row —
including a row whose `closed` flag is already true — sets that row's
`last_activity` to the current time and upserts the author into `users`. -/
theorem C10_on_message_activity (db : DB) (author : Nat) (authorName : String)
    (cid now : Nat) (t : Ticket) (hmem : t ∈ db.tickets) (hcid : t.channel_id = cid) :
    on_message db true author authorName cid now = db ∧
    (∀ t' ∈ (on_message db false author authorName cid now).tickets,
        t'.channel_id = cid → t'.last_activity = now) ∧
    (∃ u ∈ (on_message db false author authorName cid now).users, u.user_id = author) := by
  have hany : db.tickets.any (fun t => t.channel_id == cid) = true :=
    List.any_eq_true.mpr ⟨t, hmem, by simp [hcid]⟩
  refine ⟨rfl, ?_, ?_⟩
  · intro t' ht' hcid'
    simp only [on_message, Bool.false_eq_true, if_false, hany, if_true,
      track_user_tickets, List.mem_map] at ht'
    obtain ⟨s, hs, heq⟩ := ht'
    subst heq
    by_cases hb : (s.channel_id == cid) = true
    · simp [hb]
    · rw [if_neg hb] at hcid' ⊢
      exact absurd (by simp [hcid']) hb
  · have h := track_user_has_user db author authorName now
    simpa [on_message, hany] using h

def dbC10 : DB := ⟨[], [rowClosed], [], [], [], []⟩

theorem C10_witness :
    on_message dbC10 true 7 "bob" 10 5 = dbC10 :=
  (C10_on_message_activity dbC10 7 "bob" 10 5 rowClosed (by decide) rfl).1

/-! ### C5 -/

/-- C5 (amended): a claim attempt on an open ticket whose `claimed_by` is
already set never mutates the `tickets` row or the stats; the attempter equal
to the claimant gets `alreadyClaimedBySelf`; a different attempter gets
`alreadyClaimedByOther` naming the claimant only when the claimant is still a
guild member — when the claimant has left the guild, `claimed_by.mention` on
the `None` returned by `guild.get_member` raises `AttributeError` and only a
generic error is reported. -/
theorem C5_claim_conflict_no_mutation (db : DB) (g : Guild) (cid user : Nat)
    (userName : String) (now today : Nat) (t : Ticket) (c : Nat)
    (hfind : db.tickets.find? (fun r => r.channel_id == cid && r.closed == false) = some t)
    (hclaimed : t.claimed_by = some c) :
    (user = c → (handle_claim_ticket db g cid user userName true now today).2 =
        ClaimResult.alreadyClaimedBySelf) ∧
    (user ≠ c → g.members.contains c = true →
        (handle_claim_ticket db g cid user userName true now today).2 =
          ClaimResult.alreadyClaimedByOther c) ∧
    (user ≠ c → g.members.contains c = false →
        (handle_claim_ticket db g cid user userName true now today).2 =
          ClaimResult.raisedAttributeError) ∧
    (handle_claim_ticket db g cid user userName true now today).1.tickets = db.tickets ∧
    (handle_claim_ticket db g cid user userName true now today).1.stats = db.stats := by
  have hred : handle_claim_ticket db g cid user userName true now today =
      (if c == user then (track_user db user userName now, .alreadyClaimedBySelf)
       else if g.members.contains c then
         (track_user db user userName now, .alreadyClaimedByOther c)
       else (track_user db user userName now, .raisedAttributeError)) := by
    have hfind2 : db.tickets.find? (fun t => t.channel_id == cid && !t.closed) = some t := by
      simpa using hfind
    unfold handle_claim_ticket
    simp [track_user_tickets, hfind2, hclaimed]
  refine ⟨?_, ?_, ?_, ?_, ?_⟩
  · intro h
    rw [hred, if_pos (by simp [h])]
  · intro h hc
    rw [hred, if_neg (by simp only [beq_iff_eq]; exact fun hh => h hh.symm), if_pos hc]
  · intro h hc
    rw [hred, if_neg (by simp only [beq_iff_eq]; exact fun hh => h hh.symm),
      if_neg (by rw [hc]; exact Bool.false_ne_true)]
  · have : (handle_claim_ticket db g cid user userName true now today).1 =
        track_user db user userName now := by
      rw [hred]; split
      · rfl
      · split <;> rfl
    rw [this, track_user_tickets]
  · have : (handle_claim_ticket db g cid user userName true now today).1 =
        track_user db user userName now := by
      rw [hred]; split
      · rfl
      · split <;> rfl
    rw [this, track_user_stats]

/-- Open ticket in channel 10 claimed by user 2. -/
def rowClaimedBy2 : Ticket := ⟨10, "AAAA0000", 1, "other", some 2, false, 0, 0, []⟩

def dbC5 : DB := ⟨[], [rowClaimedBy2], [], [], [], []⟩

/-- Guild in which the claimant (user 2) is no longer a member. -/
def gC5 : Guild := ⟨[3], [], [chan10]⟩

/-- C5 counterexample: staff user 3 presses Claim on the ticket claimed by
user 2 after user 2 left the guild; the handler raises (`AttributeError` on
`claimed_by.mention`) instead of reporting `AlreadyClaimedByOther` naming the
claimant.  The row is still not mutated. -/
theorem C5_counterexample :
    (handle_claim_ticket dbC5 gC5 10 3 "staffer" true 5 5).2 =
      ClaimResult.raisedAttributeError ∧
    (handle_claim_ticket dbC5 gC5 10 3 "staffer" true 5 5).1.tickets = dbC5.tickets := by
  decide

/-- Guild in which the claimant (user 2) is still a member. -/
def gC5b : Guild := ⟨[2, 3], [], [chan10]⟩

theorem C5_witness :
    (handle_claim_ticket dbC5 gC5b 10 3 "staffer" true 5 5).2 =
      ClaimResult.alreadyClaimedByOther 2 :=
  (C5_claim_conflict_no_mutation dbC5 gC5b 10 3 "staffer" 5 5 rowClaimedBy2 2
    (by decide) rfl).2.1 (by decide) (by decide)

/-! ### C1 -/

/-- Number of open tickets owned by `uid`. -/
def openTicketsFor (db : DB) (uid : Nat) : Nat :=
  (db.tickets.filter (fun t => t.user_id == uid && t.closed == false)).length

/-- C1 (amended): the duplicate-open guard fires only when the existing open
row's channel is still known to the guild: in that case `create_ticket`
reports the existing ticket and creates no channel and no row.  When the
channel has been deleted while the row is still open, the source falls
through and creates a second open ticket for the same user (see the
counterexample), so the at-most-one-open-ticket-per-user invariant is
preserved by `create_ticket` only for users whose open row still has its
channel. -/
theorem C1_duplicate_guard (db : DB) (g : Guild) (user : Nat)
    (userName ttype genId : String) (newChanId now today : Nat) (t : Ticket)
    (hfind : db.tickets.find? (fun r => r.user_id == user && r.closed == false) = some t)
    (hchan : (g.getChannel t.channel_id).isSome = true) :
    (create_ticket db g user userName ttype genId newChanId now today).2.2 =
        CreateResult.duplicateOpen t.channel_id ∧
    (create_ticket db g user userName ttype genId newChanId now today).1.tickets =
        db.tickets ∧
    (create_ticket db g user userName ttype genId newChanId now today).2.1 = g := by
  obtain ⟨c, hc⟩ := Option.isSome_iff_exists.mp hchan
  have hfindN : db.tickets.find? (fun r => r.user_id == user && !r.closed) = some t := by
    simpa using hfind
  refine ⟨?_, ?_, ?_⟩ <;>
    simp [create_ticket, track_user_tickets, hfindN, hc]

def dbC1w : DB := ⟨[], [rowOpen], [], [], [], []⟩

def gC1w : Guild := ⟨[1], ["Other Issues"], [chan10]⟩

theorem C1_witness :
    (create_ticket dbC1w gC1w 1 "alice" "other" "BBBB1111" 20 5 5).2.2 =
      CreateResult.duplicateOpen 10 :=
  (C1_duplicate_guard dbC1w gC1w 1 "alice" "other" "BBBB1111" 20 5 5 rowOpen
    (by decide) (by decide)).1

/-- Guild where the open ticket's channel (id 10) no longer exists. -/
def gC1 : Guild := ⟨[1], [], []⟩

/-- C1 counterexample: user 1 already has the open row `rowOpen`, but its
channel is gone from the guild, so `create_ticket` does not report the
existing ticket — it creates a new channel and inserts a second open row for
user 1, leaving two tickets with `owner = 1` and `closed = false`. -/
theorem C1_counterexample :
    openTicketsFor dbC1w 1 = 1 ∧
    (create_ticket dbC1w gC1 1 "alice" "other" "BBBB1111" 20 5 5).2.2 =
      CreateResult.created 20 "BBBB1111" ∧
    openTicketsFor (create_ticket dbC1w gC1 1 "alice" "other" "BBBB1111" 20 5 5).1 1 = 2 ∧
    (create_ticket dbC1w gC1 1 "alice" "other" "BBBB1111" 20 5 5).2.1.channels.length =
      gC1.channels.length + 1 := by
  decide

/-! ### C8 -/

/-- C8 (amended): `ticket_id` uniqueness in the store is preserved — but not
by retrying.  When the generated id (or the new channel id) collides with an
existing row, the INSERT raises a uniqueness violation which the surrounding
`except` turns into a generic error: no row is inserted, there is no retry
with a new id, and the just-created channel is left orphaned.  When the
generated id is fresh, the inserted row carries it, so distinctness of all
stored `ticket_id`s is maintained. -/
theorem C8_no_retry_on_collision (db : DB) (g : Guild) (user : Nat)
    (userName ttype genId : String) (newChanId now today : Nat)
    (hopen : db.tickets.find? (fun r => r.user_id == user && r.closed == false) = none) :
    ((∃ r ∈ db.tickets, r.ticket_id = genId ∨ r.channel_id = newChanId) →
        (create_ticket db g user userName ttype genId newChanId now today).2.2 =
          CreateResult.errored ∧
        (create_ticket db g user userName ttype genId newChanId now today).1.tickets =
          db.tickets) ∧
    ((∀ r ∈ db.tickets, r.ticket_id ≠ genId ∧ r.channel_id ≠ newChanId) →
        (create_ticket db g user userName ttype genId newChanId now today).2.2 =
          CreateResult.created newChanId genId ∧
        (∃ row, (create_ticket db g user userName ttype genId newChanId now today).1.tickets
            = db.tickets ++ [row] ∧ row.ticket_id = genId) ∧
        ((db.tickets.map Ticket.ticket_id).Nodup →
          ((create_ticket db g user userName ttype genId newChanId now today).1.tickets.map
              Ticket.ticket_id).Nodup)) := by
  have hopenN : db.tickets.find? (fun r => r.user_id == user && !r.closed) = none := by
    simpa using hopen
  constructor
  · rintro ⟨r, hr, hdisj⟩
    have hany : db.tickets.any
        (fun r => r.channel_id == newChanId || r.ticket_id == genId) = true :=
      List.any_eq_true.mpr ⟨r, hr, by rcases hdisj with h | h <;> simp [h]⟩
    constructor <;>
      simp [create_ticket, create_ticket_fresh, track_user_tickets, hopenN, hany]
  · intro hfresh
    have hany : db.tickets.any
        (fun r => r.channel_id == newChanId || r.ticket_id == genId) = false := by
      rw [List.any_eq_false]
      intro r hr
      simp [(hfresh r hr).1, (hfresh r hr).2]
    have htk : (create_ticket db g user userName ttype genId newChanId now today).1.tickets
        = db.tickets ++ [⟨newChanId, genId, user, ttype, none, false, now, now, []⟩] := by
      simp [create_ticket, create_ticket_fresh, track_user_tickets, hopenN, hany,
        log_stat_tickets]
    refine ⟨?_, ⟨_, htk, rfl⟩, ?_⟩
    · simp [create_ticket, create_ticket_fresh, track_user_tickets, hopenN, hany]
    · intro hnd
      rw [htk]
      simp only [List.map_append, List.map_cons, List.map_nil]
      rw [List.nodup_append]
      refine ⟨hnd, List.nodup_singleton _, ?_⟩
      intro a ha hb
      obtain ⟨r, hr, hrid⟩ := List.mem_map.mp ha
      simp only [List.mem_singleton] at hb
      exact (hfresh r hr).1 (hrid.trans hb)

theorem C8_witness :
    (create_ticket dbC1w gC1w 2 "carol" "other" "BBBB1111" 20 5 5).2.2 =
      CreateResult.created 20 "BBBB1111" :=
  ((C8_no_retry_on_collision dbC1w gC1w 2 "carol" "other" "BBBB1111" 20 5 5
    (by decide)).2 (by decide)).1

/-- C8 counterexample: user 2 (no open ticket) creates a ticket while the
generated id "AAAA0000" already belongs to user 1's stored row.  No retry
happens: the call errors, no row is inserted, and the channel created before
the INSERT is orphaned. -/
theorem C8_counterexample :
    (create_ticket dbC1w gC1w 2 "carol" "other" "AAAA0000" 20 5 5).2.2 =
      CreateResult.errored ∧
    (create_ticket dbC1w gC1w 2 "carol" "other" "AAAA0000" 20 5 5).1.tickets =
      dbC1w.tickets ∧
    (create_ticket dbC1w gC1w 2 "carol" "other" "AAAA0000" 20 5 5).2.1.channels.length =
      gC1w.channels.length + 1 := by
  decide

/-! ### Close-path helper lemmas (C2, C4) -/

/-- The guild after a close: channel moved under "Archived Tickets"
(create-if-absent) with default deny. -/
def archiveChannelEdit (g : Guild) (cid : Nat) : Guild :=
  (ensureCategory g "Archived Tickets").updateChannel cid (fun c =>
    { c with category := some "Archived Tickets", defaultRead := false })

/-- The store after the close sequence (before reconciliation, which touches
only `ticket_setups`): transcript upsert, row closed, archived-deletion row,
`closed` stat. -/
def closedDBAfter (db : DB) (cid : Nat) (tid : String) (user : Nat)
    (upload : Option String) (now today : Nat) : DB :=
  log_ticket_stat
    { (create_transcript db cid user upload now).1 with
      tickets := closeTicketRow (create_transcript db cid user upload now).1.tickets cid,
      archived := (create_transcript db cid user upload now).1.archived ++
        [⟨cid, tid, now + ARCHIVE_DELETE_DAYS⟩] } today .closed

theorem closedDBAfter_transcripts (db : DB) (cid : Nat) (tid : String) (user : Nat)
    (upload : Option String) (now today : Nat) :
    (closedDBAfter db cid tid user upload now today).transcripts =
      (create_transcript db cid user upload now).1.transcripts := by
  unfold closedDBAfter; rw [log_stat_transcripts]

theorem closedDBAfter_tickets (db : DB) (cid : Nat) (tid : String) (user : Nat)
    (upload : Option String) (now today : Nat) :
    (closedDBAfter db cid tid user upload now today).tickets =
      closeTicketRow (create_transcript db cid user upload now).1.tickets cid := by
  unfold closedDBAfter; rw [log_stat_tickets]

theorem closedDBAfter_archived (db : DB) (cid : Nat) (tid : String) (user : Nat)
    (upload : Option String) (now today : Nat) :
    (closedDBAfter db cid tid user upload now today).archived =
      (create_transcript db cid user upload now).1.archived ++
        [⟨cid, tid, now + ARCHIVE_DELETE_DAYS⟩] := by
  unfold closedDBAfter; rw [log_stat_archived]

/-- Reduction of `handle_close_ticket` on an open ticket with permission. -/
theorem handle_close_reduce (db : DB) (g : Guild) (w : MsgWorld) (cid user : Nat)
    (userIsStaff : Bool) (upload : Option String) (now today : Nat) (t : Ticket)
    (hfind : db.tickets.find? (fun r => r.channel_id == cid && r.closed == false) = some t)
    (hperm : (userIsStaff || user == t.user_id) = true) :
    handle_close_ticket db g w cid user userIsStaff upload now today =
      ((restore_ticket_creation_view (archiveChannelEdit g cid)
          (closedDBAfter db cid t.ticket_id user upload now today) w).db,
       archiveChannelEdit g cid,
       (restore_ticket_creation_view (archiveChannelEdit g cid)
          (closedDBAfter db cid t.ticket_id user upload now today) w).w,
       CloseResult.closedOk (create_transcript db cid user upload now).2) := by
  have hfindN : db.tickets.find? (fun r => r.channel_id == cid && !r.closed) = some t := by
    simpa using hfind
  unfold handle_close_ticket
  simp [hfindN, hperm, archiveChannelEdit, closedDBAfter]

/-- Every row at the closed channel is closed after `closeTicketRow`. -/
theorem closeTicketRow_closes (rows : List Ticket) (cid : Nat) :
    ∀ r ∈ closeTicketRow rows cid, r.channel_id = cid → r.closed = true := by
  intro r hr hcid
  obtain ⟨s, hs, heq⟩ := List.mem_map.mp hr
  rw [← heq] at hcid ⊢
  by_cases hb : (s.channel_id == cid) = true
  · rw [if_pos hb]
  · rw [if_neg hb] at hcid
    exact absurd (by simp [hcid]) hb

/-- After `closeTicketRow` there is no open row left at the channel. -/
theorem find?_closeTicketRow_none (rows : List Ticket) (cid : Nat) :
    (closeTicketRow rows cid).find?
      (fun r => r.channel_id == cid && r.closed == false) = none := by
  rw [List.find?_eq_none]
  intro r hr
  obtain ⟨s, hs, heq⟩ := List.mem_map.mp hr
  subst heq
  by_cases hb : (s.channel_id == cid) = true
  · simp [hb]
  · rw [if_neg hb]
    intro hcontra
    rw [Bool.and_eq_true] at hcontra
    exact hb hcontra.1

/-- A successful upload is reported back as the paste URL. -/
theorem create_transcript_some_snd (db : DB) (cid closer : Nat) (url : String)
    (now : Nat) : (create_transcript db cid closer (some url) now).2 = some url := by
  by_cases h : db.transcripts.any (fun t => t.channel_id == cid) = true <;>
    simp [create_transcript, h]

/-- The transcript upsert for a successful upload leaves a row for the
channel carrying the paste URL. -/
theorem create_transcript_mem (db : DB) (cid closer : Nat) (url : String) (now : Nat) :
    ∃ tr ∈ (create_transcript db cid closer (some url) now).1.transcripts,
      tr.channel_id = cid ∧ tr.paste_url = some url := by
  by_cases h : db.transcripts.any (fun t => t.channel_id == cid) = true
  · obtain ⟨x, hx, hbeq⟩ := List.any_eq_true.mp h
    refine ⟨⟨cid, some url, now, closer⟩, ?_, rfl, rfl⟩
    have hmem := List.mem_map_of_mem
      (fun t : Transcript => if t.channel_id == cid
        then (⟨cid, some url, now, closer⟩ : Transcript) else t) hx
    simpa [create_transcript, h, hbeq] using hmem
  · refine ⟨⟨cid, some url, now, closer⟩, ?_, rfl, rfl⟩
    simp [create_transcript, h]

/-- In the inactivity sweep, a failed upload stores no transcript row either:
the per-ticket body leaves `transcripts` unchanged whatever else happens. -/
theorem auto_close_step_transcripts_none (g : Guild) (db : DB) (sendF : Nat → Bool)
    (uploads : Nat → Option String) (botId now today : Nat) (t : Ticket)
    (hup : uploads t.channel_id = none) :
    (auto_close_step g db sendF uploads botId now today t).1.transcripts =
      db.transcripts := by
  unfold auto_close_step
  cases hg : g.getChannel t.channel_id with
  | none => rfl
  | some c =>
      rw [hup]
      split
      · rfl
      · split
        · rfl
        · simp [log_stat_transcripts, create_transcript_none]

/-! ### C2 -/

def transcriptsFor (db : DB) (cid : Nat) : List Transcript :=
  db.transcripts.filter (fun t => t.channel_id == cid)

def archivedFor (db : DB) (cid : Nat) : List ArchivedTicket :=
  db.archived.filter (fun a => a.channel_id == cid)

/-- C2 (amended): when the external paste upload fails, no `transcripts` row
at all is persisted for the closed channel (the INSERT is guarded by
`if paste_url:`), but the close sequence still runs to completion: the result
is a successful close with no URL, the row is marked closed and the
archived-deletion row is scheduled.  A row (carrying the URL) is persisted
exactly when the upload succeeds.  The inactivity sweep behaves the same:
with a failed upload its per-ticket body never touches `transcripts`. -/
theorem C2_transcript_on_upload_failure (db : DB) (g : Guild) (w : MsgWorld)
    (cid user : Nat) (userIsStaff : Bool) (now today : Nat) (t : Ticket)
    (hfind : db.tickets.find? (fun r => r.channel_id == cid && r.closed == false) = some t)
    (hperm : (userIsStaff || user == t.user_id) = true) :
    (handle_close_ticket db g w cid user userIsStaff none now today).2.2.2 =
        CloseResult.closedOk none ∧
    (handle_close_ticket db g w cid user userIsStaff none now today).1.transcripts =
        db.transcripts ∧
    (∀ r ∈ (handle_close_ticket db g w cid user userIsStaff none now today).1.tickets,
        r.channel_id = cid → r.closed = true) ∧
    (handle_close_ticket db g w cid user userIsStaff none now today).1.archived =
        db.archived ++ [⟨cid, t.ticket_id, now + ARCHIVE_DELETE_DAYS⟩] ∧
    (∀ url, (handle_close_ticket db g w cid user userIsStaff (some url) now today).2.2.2 =
        CloseResult.closedOk (some url) ∧
        ∃ tr ∈ (handle_close_ticket db g w cid user userIsStaff (some url) now today).1.transcripts,
          tr.channel_id = cid ∧ tr.paste_url = some url) ∧
    (∀ sendF uploads botId, uploads t.channel_id = none →
        (auto_close_step g db sendF uploads botId now today t).1.transcripts =
          db.transcripts) := by
  have hred := handle_close_reduce db g w cid user userIsStaff none now today t hfind hperm
  refine ⟨?_, ?_, ?_, ?_, ?_, ?_⟩
  · rw [hred]
    rfl
  · rw [hred]
    rw [(restore_creation_view_fields _ _ _).2.1, closedDBAfter_transcripts]
    rfl
  · intro r hr hcid
    rw [hred, (restore_creation_view_fields _ _ _).1, closedDBAfter_tickets] at hr
    exact closeTicketRow_closes _ _ r hr hcid
  · rw [hred]
    rw [(restore_creation_view_fields _ _ _).2.2.1, closedDBAfter_archived]
    rfl
  · intro url
    have hredU := handle_close_reduce db g w cid user userIsStaff (some url) now today t
      hfind hperm
    constructor
    · rw [hredU, create_transcript_some_snd]
    · rw [hredU, (restore_creation_view_fields _ _ _).2.1, closedDBAfter_transcripts]
      exact create_transcript_mem db cid user url now
  · intro sendF uploads botId hup
    exact auto_close_step_transcripts_none g db sendF uploads botId now today t hup

def wEmpty : MsgWorld := ⟨fun _ _ => FetchResult.notFound⟩

/-- C2 counterexample: the owner closes the ticket in channel 10 while the
upload fails; the close completes (`closedOk none`) but no `transcripts` row
for channel 10 is persisted — the claim requires a row with `paste_url`
absent to exist. -/
theorem C2_counterexample :
    (handle_close_ticket dbC1w gC1w wEmpty 10 1 false none 5 5).2.2.2 =
      CloseResult.closedOk none ∧
    transcriptsFor (handle_close_ticket dbC1w gC1w wEmpty 10 1 false none 5 5).1 10 = [] ∧
    (∀ r ∈ (handle_close_ticket dbC1w gC1w wEmpty 10 1 false none 5 5).1.tickets,
        r.closed = true) := by
  decide

theorem C2_witness :
    (handle_close_ticket dbC1w gC1w wEmpty 10 1 false none 5 5).1.transcripts =
      dbC1w.transcripts :=
  (C2_transcript_on_upload_failure dbC1w gC1w wEmpty 10 1 false 5 5 rowOpen
    (by decide) (by decide)).2.1

/-! ### C4 -/

/-- C4 (amended): close is a one-way transition.  After a successful close, a
second close of the same channel — by anyone, with any upload outcome —
returns the not-an-open-ticket error and performs no mutation at all; exactly
one `archived_tickets` row exists for the channel, and the `closed` flag of
every row at the channel is true (no modelled operation ever resets it).  The
"exactly one Transcript row" part of the claim holds only when the first
close's upload succeeded: on upload failure (see the counterexample) no
transcript row exists at all. -/
theorem C4_close_one_way (db : DB) (g : Guild) (w : MsgWorld) (cid user : Nat)
    (userIsStaff : Bool) (upload : Option String) (now today : Nat)
    (user2 : Nat) (staff2 : Bool) (upload2 : Option String) (now2 today2 : Nat)
    (t : Ticket) (r1 : DB × Guild × MsgWorld × CloseResult)
    (hr1 : r1 = handle_close_ticket db g w cid user userIsStaff upload now today)
    (hfind : db.tickets.find? (fun r => r.channel_id == cid && r.closed == false) = some t)
    (hperm : (userIsStaff || user == t.user_id) = true)
    (harch : ∀ a ∈ db.archived, a.channel_id ≠ cid)
    (htr : ∀ x ∈ db.transcripts, x.channel_id ≠ cid) :
    handle_close_ticket r1.1 r1.2.1 r1.2.2.1 cid user2 staff2 upload2 now2 today2 =
        (r1.1, r1.2.1, r1.2.2.1, CloseResult.notOpenTicket) ∧
    (archivedFor r1.1 cid).length = 1 ∧
    (upload = none → (transcriptsFor r1.1 cid).length = 0) ∧
    (∀ url, upload = some url → (transcriptsFor r1.1 cid).length = 1) ∧
    (∀ r ∈ r1.1.tickets, r.channel_id = cid → r.closed = true) := by
  have hred := handle_close_reduce db g w cid user userIsStaff upload now today t hfind hperm
  have htks : r1.1.tickets = closeTicketRow db.tickets cid := by
    rw [hr1, hred, (restore_creation_view_fields _ _ _).1, closedDBAfter_tickets,
      create_transcript_tickets]
  have harch1 : r1.1.archived =
      db.archived ++ [⟨cid, t.ticket_id, now + ARCHIVE_DELETE_DAYS⟩] := by
    rw [hr1, hred, (restore_creation_view_fields _ _ _).2.2.1, closedDBAfter_archived,
      create_transcript_archived]
  have htrs : r1.1.transcripts = (create_transcript db cid user upload now).1.transcripts := by
    rw [hr1, hred, (restore_creation_view_fields _ _ _).2.1, closedDBAfter_transcripts]
  have hfilTr : db.transcripts.filter (fun x => x.channel_id == cid) = [] := by
    rw [List.filter_eq_nil_iff]
    intro x hx
    simp [htr x hx]
  refine ⟨?_, ?_, ?_, ?_, ?_⟩
  · have hnone : r1.1.tickets.find?
        (fun r => r.channel_id == cid && r.closed == false) = none := by
      rw [htks]; exact find?_closeTicketRow_none db.tickets cid
    unfold handle_close_ticket
    rw [hnone]
  · show (r1.1.archived.filter (fun a => a.channel_id == cid)).length = 1
    rw [harch1, List.filter_append]
    have h1 : db.archived.filter (fun a => a.channel_id == cid) = [] := by
      rw [List.filter_eq_nil_iff]
      intro a ha
      simp [harch a ha]
    rw [h1]
    simp
  · intro hup
    subst hup
    show (r1.1.transcripts.filter (fun x => x.channel_id == cid)).length = 0
    rw [htrs, create_transcript_none]
    rw [hfilTr]
    rfl
  · intro url hup
    subst hup
    have hany : db.transcripts.any (fun x => x.channel_id == cid) = false := by
      rw [List.any_eq_false]
      intro x hx
      simp [htr x hx]
    have hup1 : (create_transcript db cid user (some url) now).1.transcripts =
        db.transcripts ++ [⟨cid, some url, now, user⟩] := by
      simp [create_transcript, hany]
    show (r1.1.transcripts.filter (fun x => x.channel_id == cid)).length = 1
    rw [htrs, hup1, List.filter_append, hfilTr]
    simp
  · intro r hr hcid
    rw [htks] at hr
    exact closeTicketRow_closes _ _ r hr hcid

/-- C4 counterexample: a successful close whose upload failed leaves zero
`transcripts` rows for the channel, not exactly one as claimed. -/
theorem C4_counterexample :
    (handle_close_ticket dbC1w gC1w wEmpty 10 1 false none 5 5).2.2.2 =
      CloseResult.closedOk none ∧
    (transcriptsFor (handle_close_ticket dbC1w gC1w wEmpty 10 1 false none 5 5).1 10).length
      = 0 ∧
    (archivedFor (handle_close_ticket dbC1w gC1w wEmpty 10 1 false none 5 5).1 10).length
      = 1 := by
  decide

theorem C4_witness :
    handle_close_ticket (handle_close_ticket dbC1w gC1w wEmpty 10 1 false (some "u") 5 5).1
        (handle_close_ticket dbC1w gC1w wEmpty 10 1 false (some "u") 5 5).2.1
        (handle_close_ticket dbC1w gC1w wEmpty 10 1 false (some "u") 5 5).2.2.1
        10 2 true none 6 6 =
      ((handle_close_ticket dbC1w gC1w wEmpty 10 1 false (some "u") 5 5).1,
       (handle_close_ticket dbC1w gC1w wEmpty 10 1 false (some "u") 5 5).2.1,
       (handle_close_ticket dbC1w gC1w wEmpty 10 1 false (some "u") 5 5).2.2.1,
       CloseResult.notOpenTicket) :=
  (C4_close_one_way dbC1w gC1w wEmpty 10 1 false (some "u") 5 5 2 true none 6 6 rowOpen
    _ rfl (by decide) (by decide) (by decide) (by decide)).1

/-! ### Participant helper lemmas (C9) -/

/-- The row update performed by `add_user_to_ticket`'s UPDATE. -/
def addF (cid target : Nat) (r : Ticket) : Ticket :=
  if r.channel_id == cid then
    { r with additional_users := r.additional_users ++ [target] } else r

/-- The row update performed by `remove_user_from_ticket`'s UPDATE
(`array_remove` removes every occurrence). -/
def removeF (cid target : Nat) (r : Ticket) : Ticket :=
  if r.channel_id == cid then
    { r with additional_users := r.additional_users.filter (fun u => !(u == target)) }
  else r

theorem addF_pred (cid target : Nat) (a : Ticket) :
    ((addF cid target a).channel_id == cid && (addF cid target a).closed == false) =
      (a.channel_id == cid && a.closed == false) := by
  unfold addF; split <;> rfl

theorem removeF_pred (cid target : Nat) (a : Ticket) :
    ((removeF cid target a).channel_id == cid && (removeF cid target a).closed == false) =
      (a.channel_id == cid && a.closed == false) := by
  unfold removeF; split <;> rfl

/-- Reduction of `add_user_to_ticket` when the target is addable. -/
theorem add_reduce (db : DB) (g : Guild) (cid target : Nat) (t : Ticket)
    (hfind : db.tickets.find? (fun r => r.channel_id == cid && r.closed == false) = some t)
    (hcond : (target == t.user_id || t.additional_users.contains target) = false) :
    add_user_to_ticket db g cid target =
      ({ db with tickets := db.tickets.map (addF cid target) },
       g.updateChannel cid (fun c => c.setPerm target ⟨true, true⟩),
       AddResult.addedOk) := by
  unfold add_user_to_ticket
  rw [hfind]
  dsimp only
  rw [hcond]
  rfl

/-- Reduction of `remove_user_from_ticket` when the target is removable. -/
theorem remove_reduce (db : DB) (g : Guild) (cid target : Nat) (t : Ticket)
    (hfind : db.tickets.find? (fun r => r.channel_id == cid && r.closed == false) = some t)
    (hc1 : (target == t.user_id) = false)
    (hc2 : t.additional_users.contains target = true) :
    remove_user_from_ticket db g cid target =
      ({ db with tickets := db.tickets.map (removeF cid target) },
       g.updateChannel cid (fun c => c.setPerm target ⟨false, false⟩),
       RemoveResult.removedOk) := by
  unfold remove_user_from_ticket
  rw [hfind]
  dsimp only
  rw [hc1, hc2]
  rfl

theorem setPerm_id (c : Chan) (uid : Nat) (p : Perm) : (c.setPerm uid p).id = c.id := by
  unfold Chan.setPerm; split <;> rfl

/-- `getChannel` after `updateChannel` at the same id, for id-preserving
edits. -/
theorem getChannel_update (g : Guild) (cid : Nat) (f : Chan → Chan)
    (hf : ∀ ch, (f ch).id = ch.id) (c : Chan) (hc : g.getChannel cid = some c) :
    (g.updateChannel cid f).getChannel cid = some (f c) := by
  have hc' : g.channels.find? (fun ch => ch.id == cid) = some c := hc
  have hcid : (c.id == cid) = true := by simpa using List.find?_some hc'
  have hp : ∀ a : Chan, ((if a.id == cid then f a else a).id == cid) = (a.id == cid) := by
    intro a
    by_cases hb : (a.id == cid) = true
    · rw [if_pos hb, hf a]
    · rw [if_neg hb]
  unfold Guild.updateChannel Guild.getChannel
  rw [find?_map_of_pred _ _ hp, hc']
  show some (if c.id == cid then f c else c) = some (f c)
  rw [if_pos hcid]

/-- Re-assigning a key that is absent from an association list is a no-op on
the other entries. -/
theorem lookup_map_reassign_none (l : List (Nat × Perm)) (v : Nat) (p : Perm)
    (h : l.lookup v = none) :
    l.map (fun e => if e.1 == v then (v, p) else e) = l := by
  have h' := List.lookup_eq_none_iff.mp h
  refine (List.map_congr_left ?_).trans (List.map_id' _)
  intro e he
  have hv := h' e he
  have hne : (e.1 == v) = false := by
    simp only [bne_iff_ne, ne_eq] at hv
    simp only [beq_eq_false_iff_ne, ne_eq]
    exact fun hh => hv hh.symm
  rw [if_neg (by rw [hne]; exact Bool.false_ne_true)]

/-- Granting then revoking an overwrite for a user with no prior overwrite
leaves an explicit deny, so the user still cannot read. -/
theorem effRead_after_add_remove (c : Chan) (v : Nat)
    (hlook : c.overwrites.lookup v = none) :
    ((c.setPerm v ⟨true, true⟩).setPerm v ⟨false, false⟩).effRead v = false := by
  have h1 : c.setPerm v ⟨true, true⟩ =
      { c with overwrites := c.overwrites ++ [(v, ⟨true, true⟩)] } := by
    unfold Chan.setPerm
    rw [hlook]
    rfl
  have h2 : (c.overwrites ++ [(v, (⟨true, true⟩ : Perm))]).lookup v =
      some ⟨true, true⟩ := by
    rw [List.lookup_append, hlook]
    simp
  have h3 : ((c.setPerm v ⟨true, true⟩).setPerm v ⟨false, false⟩).overwrites =
      c.overwrites ++ [(v, ⟨false, false⟩)] := by
    rw [h1]
    unfold Chan.setPerm
    show (if ((c.overwrites ++ [(v, (⟨true, true⟩ : Perm))]).lookup v).isSome = true
        then _ else _ : Chan).overwrites = _
    rw [h2]
    show (c.overwrites ++ [(v, (⟨true, true⟩ : Perm))]).map
        (fun e => if e.1 == v then (v, ⟨false, false⟩) else e) = _
    rw [List.map_append, lookup_map_reassign_none _ _ _ hlook]
    simp
  unfold Chan.effRead
  rw [h3, List.lookup_append, hlook]
  simp

/-! ### C9 -/

/-- C9: for an open ticket and a user `v` who is neither the owner nor
already a participant (and so has no individual overwrite on the default-deny
ticket channel), `addParticipant` followed by `removeParticipant` restores the
store exactly — `additional_users` and every other table return to their
initial values — and restores `v`'s effective channel visibility: `v` could
not read the channel before the pair (default deny, no overwrite) and cannot
read it after (explicit deny overwrite). -/
theorem C9_add_remove_roundtrip (db : DB) (g : Guild) (cid v : Nat) (t : Ticket)
    (c : Chan)
    (hfind : db.tickets.find? (fun r => r.channel_id == cid && r.closed == false) = some t)
    (hnd : (db.tickets.map Ticket.channel_id).Nodup)
    (hown : v ≠ t.user_id)
    (hmem : v ∉ t.additional_users)
    (hchan : g.getChannel cid = some c)
    (hlook : c.overwrites.lookup v = none)
    (hdef : c.defaultRead = false) :
    (add_user_to_ticket db g cid v).2.2 = AddResult.addedOk ∧
    (remove_user_from_ticket (add_user_to_ticket db g cid v).1
        (add_user_to_ticket db g cid v).2.1 cid v).2.2 = RemoveResult.removedOk ∧
    (remove_user_from_ticket (add_user_to_ticket db g cid v).1
        (add_user_to_ticket db g cid v).2.1 cid v).1 = db ∧
    (∃ c₂, (remove_user_from_ticket (add_user_to_ticket db g cid v).1
          (add_user_to_ticket db g cid v).2.1 cid v).2.1.getChannel cid = some c₂ ∧
        c₂.effRead v = c.effRead v ∧ c.effRead v = false) := by
  have htmem : t ∈ db.tickets := List.mem_of_find?_eq_some hfind
  have htp := List.find?_some hfind
  rw [Bool.and_eq_true] at htp
  have hbc : (t.channel_id == cid) = true := htp.1
  have htcid : t.channel_id = cid := by simpa using hbc
  have hc1 : (v == t.user_id) = false := by
    simp only [beq_eq_false_iff_ne, ne_eq]
    exact hown
  have hc2 : t.additional_users.contains v = false := by simpa using hmem
  have hcondAdd : (v == t.user_id || t.additional_users.contains v) = false := by
    rw [hc1, hc2]
    rfl
  have haddred := add_reduce db g cid v t hfind hcondAdd
  have hAt : addF cid v t = { t with additional_users := t.additional_users ++ [v] } := by
    unfold addF
    rw [if_pos hbc]
  have hfindA : (db.tickets.map (addF cid v)).find?
      (fun r => r.channel_id == cid && r.closed == false) = some (addF cid v t) := by
    rw [find?_map_of_pred _ _ (addF_pred cid v), hfind]
    rfl
  have hc1' : (v == (addF cid v t).user_id) = false := by rw [hAt]; exact hc1
  have hc2' : (addF cid v t).additional_users.contains v = true := by
    rw [hAt]
    simp
  have hcomp := remove_reduce { db with tickets := db.tickets.map (addF cid v) }
    (g.updateChannel cid (fun ch => ch.setPerm v ⟨true, true⟩)) cid v
    (addF cid v t) hfindA hc1' hc2'
  have hGF : (db.tickets.map (addF cid v)).map (removeF cid v) = db.tickets := by
    rw [List.map_map]
    refine (List.map_congr_left ?_).trans (List.map_id' _)
    intro r hr
    show removeF cid v (addF cid v r) = r
    by_cases hb : (r.channel_id == cid) = true
    · have hrt : r = t :=
        List.inj_on_of_nodup_map hnd hr htmem (by rw [htcid]; simpa using hb)
      subst hrt
      have h1 : addF cid v r = { r with additional_users := r.additional_users ++ [v] } := by
        unfold addF
        rw [if_pos hb]
      have hfil : (r.additional_users ++ [v]).filter (fun u => !(u == v)) =
          r.additional_users := by
        rw [List.filter_append]
        have hself : r.additional_users.filter (fun u => !(u == v)) =
            r.additional_users := by
          rw [List.filter_eq_self]
          intro a ha
          simp only [Bool.not_eq_eq_eq_not, Bool.not_true, beq_eq_false_iff_ne, ne_eq]
          exact fun hh => hmem (hh ▸ ha)
        rw [hself]
        simp
      rw [h1]
      unfold removeF
      simp only [hb, if_true]
      simp [hfil]
    · unfold addF removeF
      rw [if_neg hb, if_neg hb]
  refine ⟨?_, ?_, ?_, ?_⟩
  · rw [haddred]
  · rw [haddred]
    dsimp only
    rw [hcomp]
  · rw [haddred]
    dsimp only
    rw [hcomp]
    show ({ db with
      tickets := (db.tickets.map (addF cid v)).map (removeF cid v) } : DB) = db
    rw [hGF]
  · rw [haddred]
    dsimp only
    rw [hcomp]
    dsimp only
    have hga := getChannel_update g cid (fun ch => ch.setPerm v ⟨true, true⟩)
      (fun ch => setPerm_id ch v _) c hchan
    have hgb := getChannel_update _ cid (fun ch => ch.setPerm v ⟨false, false⟩)
      (fun ch => setPerm_id ch v _) _ hga
    refine ⟨(c.setPerm v ⟨true, true⟩).setPerm v ⟨false, false⟩, hgb, ?_, ?_⟩
    · rw [effRead_after_add_remove c v hlook]
      unfold Chan.effRead
      rw [hlook]
      exact hdef.symm
    · unfold Chan.effRead
      rw [hlook]
      exact hdef

def dbC9 : DB := ⟨[], [rowOpen], [], [], [], []⟩

theorem C9_witness :
    (remove_user_from_ticket (add_user_to_ticket dbC9 gC1w 10 5).1
        (add_user_to_ticket dbC9 gC1w 10 5).2.1 10 5).1 = dbC9 :=
  (C9_add_remove_roundtrip dbC9 gC1w 10 5 rowOpen chan10 (by decide) (by decide)
    (by decide) (by decide) (by decide) (by decide) rfl).2.2.1

/-! ### Inactivity-sweep helper lemmas (C3) -/

/-- Every row of `rows` living in channel `x` is closed. -/
def AllClosedAt (rows : List Ticket) (x : Nat) : Prop :=
  ∀ r ∈ rows, r.channel_id = x → r.closed = true

theorem closeTicketRow_mono (rows : List Ticket) (cid y : Nat)
    (h : AllClosedAt rows y) : AllClosedAt (closeTicketRow rows cid) y := by
  intro r hr hy
  obtain ⟨s, hs, heq⟩ := List.mem_map.mp hr
  rw [← heq] at hy ⊢
  by_cases hb : (s.channel_id == cid) = true
  · rw [if_pos hb]
  · rw [if_neg hb] at hy ⊢
    exact h s hs hy

/-- One sweep body leaves `tickets` unchanged or closes its own channel. -/
theorem auto_close_step_tickets (g : Guild) (db : DB) (sendF : Nat → Bool)
    (uploads : Nat → Option String) (botId now today : Nat) (t : Ticket) :
    (auto_close_step g db sendF uploads botId now today t).1.tickets = db.tickets ∨
    (auto_close_step g db sendF uploads botId now today t).1.tickets =
      closeTicketRow db.tickets t.channel_id := by
  unfold auto_close_step
  cases hg : g.getChannel t.channel_id with
  | none => exact Or.inl rfl
  | some c =>
      split
      · exact Or.inl rfl
      · split
        · exact Or.inl (create_transcript_tickets db t.channel_id botId _ now)
        · right
          simp [log_stat_tickets, create_transcript_tickets]

/-- A body whose `channel.send` does not fail never raises. -/
theorem auto_close_step_no_raise (g : Guild) (db : DB) (sendF : Nat → Bool)
    (uploads : Nat → Option String) (botId now today : Nat) (t : Ticket)
    (hsf : sendF t.channel_id = false) :
    (auto_close_step g db sendF uploads botId now today t).2.2 = false := by
  unfold auto_close_step
  cases hg : g.getChannel t.channel_id with
  | none => rfl
  | some c =>
      rw [hsf]
      split
      · rfl
      · rfl

theorem getChannel_ensureCategory (g : Guild) (n : String) (x : Nat) :
    (ensureCategory g n).getChannel x = g.getChannel x := by
  unfold Guild.getChannel
  rw [ensureCategory_channels]

theorem getChannel_update_isSome (g : Guild) (cid : Nat) (f : Chan → Chan)
    (hf : ∀ ch, (f ch).id = ch.id) (x : Nat) :
    ((g.updateChannel cid f).getChannel x).isSome = (g.getChannel x).isSome := by
  have hp : ∀ a : Chan, ((if a.id == cid then f a else a).id == x) = (a.id == x) := by
    intro a
    by_cases hb : (a.id == cid) = true
    · rw [if_pos hb, hf a]
    · rw [if_neg hb]
  unfold Guild.updateChannel Guild.getChannel
  rw [find?_map_of_pred _ _ hp]
  cases g.channels.find? (fun c => c.id == x) <;> rfl

/-- The sweep body never removes a channel from the guild. -/
theorem auto_close_step_chan_mono (g : Guild) (db : DB) (sendF : Nat → Bool)
    (uploads : Nat → Option String) (botId now today : Nat) (t : Ticket) (x : Nat)
    (hx : (g.getChannel x).isSome = true) :
    ((auto_close_step g db sendF uploads botId now today t).2.1.getChannel x).isSome
      = true := by
  unfold auto_close_step
  cases hg : g.getChannel t.channel_id with
  | none => exact hx
  | some c =>
      split
      · exact hx
      · split
        · exact hx
        · dsimp only
          rw [getChannel_update_isSome (ensureCategory g "Archived Tickets") t.channel_id
            (fun c => { c with category := some "Archived Tickets", defaultRead := false })
            (fun ch => rfl) x, getChannel_ensureCategory]
          exact hx

/-- A body run on a present channel with no send failure closes every row of
its channel. -/
theorem auto_close_step_closes (g : Guild) (db : DB) (sendF : Nat → Bool)
    (uploads : Nat → Option String) (botId now today : Nat) (t : Ticket)
    (hpres : (g.getChannel t.channel_id).isSome = true)
    (hsf : sendF t.channel_id = false) :
    AllClosedAt (auto_close_step g db sendF uploads botId now today t).1.tickets
      t.channel_id := by
  obtain ⟨c, hc⟩ := Option.isSome_iff_exists.mp hpres
  unfold auto_close_step
  rw [hc]
  dsimp only
  rw [hsf]
  intro r hr hcid
  simp only [Bool.false_eq_true, if_false, log_stat_tickets, create_transcript_tickets] at hr
  exact closeTicketRow_closes _ _ r hr hcid

/-- The sweep loop under no failures: it never aborts, it preserves
closedness, and it closes every selected ticket whose channel exists at its
turn. -/
theorem auto_close_loop_all (sendF : Nat → Bool) (uploads : Nat → Option String)
    (botId now today : Nat) :
    ∀ (sel : List Ticket) (db : DB) (g : Guild),
      (∀ t ∈ sel, sendF t.channel_id = false) →
      (auto_close_loop sendF uploads botId now today db g sel).2.2 = false ∧
      (∀ y, AllClosedAt db.tickets y →
        AllClosedAt (auto_close_loop sendF uploads botId now today db g sel).1.tickets y) ∧
      (∀ t ∈ sel, (g.getChannel t.channel_id).isSome = true →
        AllClosedAt (auto_close_loop sendF uploads botId now today db g sel).1.tickets
          t.channel_id) := by
  intro sel
  induction sel with
  | nil =>
      intro db g _
      exact ⟨rfl, fun y h => h, fun t ht => absurd ht (List.not_mem_nil t)⟩
  | cons t rest ih =>
      intro db g hok
      have hsf : sendF t.channel_id = false := hok t (List.mem_cons_self t rest)
      have hok' : ∀ s ∈ rest, sendF s.channel_id = false := fun s hs =>
        hok s (List.mem_cons_of_mem t hs)
      have hnr := auto_close_step_no_raise g db sendF uploads botId now today t hsf
      have hloop : auto_close_loop sendF uploads botId now today db g (t :: rest) =
          auto_close_loop sendF uploads botId now today
            (auto_close_step g db sendF uploads botId now today t).1
            (auto_close_step g db sendF uploads botId now today t).2.1 rest := by
        simp [auto_close_loop, hnr]
      obtain ⟨ihA, ihB, ihC⟩ :=
        ih (auto_close_step g db sendF uploads botId now today t).1
          (auto_close_step g db sendF uploads botId now today t).2.1 hok'
      refine ⟨?_, ?_, ?_⟩
      · rw [hloop]; exact ihA
      · intro y hy
        rw [hloop]
        apply ihB
        rcases auto_close_step_tickets g db sendF uploads botId now today t with he | he
        · rw [he]; exact hy
        · rw [he]; exact closeTicketRow_mono _ _ _ hy
      · intro s hs hpres
        rw [hloop]
        rcases List.mem_cons.mp hs with rfl | hsrest
        · exact ihB s.channel_id
            (auto_close_step_closes g db sendF uploads botId now today s hpres hsf)
        · exact ihC s hsrest
            (auto_close_step_chan_mono g db sendF uploads botId now today t
              s.channel_id hpres)

/-! ### C3 -/

/-- C3 (amended): the inactivity sweep is NOT failure-isolated.  The loop has
no per-item exception handling: when processing of the first selected ticket
raises (e.g. `channel.send` fails after the transcript step), the whole run
aborts — no ticket of that run is closed, including every ticket after the
failing one (they stay open for the next scheduled run, which re-queries by
state).  Only in a run with no per-ticket failure is every selected open,
inactive ticket with an existing channel closed. -/
theorem C3_sweep_failure_isolation (db : DB) (g : Guild) (sendF : Nat → Bool)
    (uploads : Nat → Option String) (botId now today : Nat) :
    (∀ (t : Ticket) (rest : List Ticket),
        (g.getChannel t.channel_id).isSome = true → sendF t.channel_id = true →
        (auto_close_loop sendF uploads botId now today db g (t :: rest)).2.2 = true ∧
        (auto_close_loop sendF uploads botId now today db g (t :: rest)).1.tickets =
          db.tickets ∧
        (auto_close_loop sendF uploads botId now today db g (t :: rest)).2.1 = g) ∧
    ((∀ t ∈ db.tickets, t.closed = false → t.last_activity < inactiveCutoff now →
        sendF t.channel_id = false) →
      (auto_close_tickets db g sendF uploads botId now today).2.2 = false ∧
      (∀ t ∈ db.tickets, t.closed = false → t.last_activity < inactiveCutoff now →
        (g.getChannel t.channel_id).isSome = true →
        ∀ r ∈ (auto_close_tickets db g sendF uploads botId now today).1.tickets,
          r.channel_id = t.channel_id → r.closed = true)) := by
  constructor
  · intro t rest hpres hsf
    obtain ⟨c, hc⟩ := Option.isSome_iff_exists.mp hpres
    have hstep : auto_close_step g db sendF uploads botId now today t =
        ((create_transcript db t.channel_id botId (uploads t.channel_id) now).1, g,
          true) := by
      unfold auto_close_step
      rw [hc]
      dsimp only
      rw [hsf]
      rfl
    have hloop : auto_close_loop sendF uploads botId now today db g (t :: rest) =
        ((create_transcript db t.channel_id botId (uploads t.channel_id) now).1, g,
          true) := by
      simp [auto_close_loop, hstep]
    rw [hloop]
    exact ⟨rfl, create_transcript_tickets _ _ _ _ _, rfl⟩
  · intro H
    have hok : ∀ t ∈ db.tickets.filter (fun t =>
        t.closed == false && decide (t.last_activity < inactiveCutoff now)),
        sendF t.channel_id = false := by
      intro t ht
      obtain ⟨hmem, hp⟩ := List.mem_filter.mp ht
      rw [Bool.and_eq_true] at hp
      exact H t hmem (by simpa using hp.1) (of_decide_eq_true hp.2)
    obtain ⟨hA, hB, hC⟩ := auto_close_loop_all sendF uploads botId now today
      (db.tickets.filter (fun t =>
        t.closed == false && decide (t.last_activity < inactiveCutoff now))) db g hok
    refine ⟨hA, ?_⟩
    intro t hmem hcl hact hpres r hr hcid
    have hsel : t ∈ db.tickets.filter (fun t =>
        t.closed == false && decide (t.last_activity < inactiveCutoff now)) :=
      List.mem_filter.mpr
        ⟨hmem, by rw [Bool.and_eq_true]; exact ⟨by simp [hcl], decide_eq_true hact⟩⟩
    exact hC t hsel hpres r hr hcid

/-- Second open inactive ticket, in channel 11, owned by user 2. -/
def rowOpenB : Ticket := ⟨11, "BBBB1111", 2, "other", none, false, 0, 0, []⟩

def chan11 : Chan := ⟨11, some "Other Issues", false, [(2, ⟨true, true⟩)]⟩

def dbC3 : DB := ⟨[], [rowOpen, rowOpenB], [], [], [], []⟩

def gC3 : Guild := ⟨[1, 2], ["Other Issues"], [chan10, chan11]⟩

/-- `channel.send` raises in channel 10 only. -/
def sfC3 : Nat → Bool := fun c => c == 10

def upNone : Nat → Option String := fun _ => none

/-- C3 counterexample: both tickets are open, inactive (cutoff `5 - 3 = 2`,
`last_activity = 0`) and have live channels, but the failure while processing
the first (channel 10) aborts the run: the second eligible ticket (channel
11) is left open and unprocessed, contradicting per-item isolation. -/
theorem C3_counterexample :
    (auto_close_tickets dbC3 gC3 sfC3 upNone 0 5 5).2.2 = true ∧
    (auto_close_tickets dbC3 gC3 sfC3 upNone 0 5 5).1.tickets = dbC3.tickets ∧
    rowOpenB.closed = false ∧ rowOpenB.last_activity < inactiveCutoff 5 ∧
    (gC3.getChannel 11).isSome = true := by
  decide

theorem C3_witness :
    (auto_close_tickets dbC3 gC3 (fun _ => false) upNone 0 5 5).2.2 = false :=
  ((C3_sweep_failure_isolation dbC3 gC3 (fun _ => false) upNone 0 5 5).2 (by decide)).1

/-! ### Archive-deletion helper lemmas (C6) -/

/-- No `archived_tickets` row at channel `x`. -/
def NoArchAt (db : DB) (x : Nat) : Prop := ∀ a ∈ db.archived, a.channel_id ≠ x

/-- No `tickets` row with ticket id `tid`. -/
def NoTicketId (db : DB) (tid : String) : Prop := ∀ t ∈ db.tickets, t.ticket_id ≠ tid

theorem delete_step_archived (df : Nat → Bool) (st : DB × Guild) (a : ArchivedTicket) :
    (delete_archived_step df st a).1.archived =
      st.1.archived.filter (fun x => !(x.channel_id == a.channel_id)) := rfl

theorem delete_step_tickets (df : Nat → Bool) (st : DB × Guild) (a : ArchivedTicket) :
    (delete_archived_step df st a).1.tickets =
      st.1.tickets.filter (fun t => !(t.ticket_id == a.ticket_id)) := rfl

theorem delete_step_establishes (df : Nat → Bool) (st : DB × Guild) (a : ArchivedTicket) :
    NoArchAt (delete_archived_step df st a).1 a.channel_id ∧
    NoTicketId (delete_archived_step df st a).1 a.ticket_id := by
  constructor
  · intro x hx
    rw [delete_step_archived] at hx
    have := (List.mem_filter.mp hx).2
    simpa using this
  · intro x hx
    rw [delete_step_tickets] at hx
    have := (List.mem_filter.mp hx).2
    simpa using this

theorem delete_step_chan_gone (df : Nat → Bool) (st : DB × Guild) (a : ArchivedTicket)
    (hdf : ∀ c, df c = false) :
    (delete_archived_step df st a).2.getChannel a.channel_id = none := by
  unfold delete_archived_step
  cases hg : st.2.getChannel a.channel_id with
  | none => exact hg
  | some c =>
      dsimp only
      rw [hdf a.channel_id]
      simp only [Bool.false_eq_true, if_false]
      refine List.find?_eq_none.mpr ?_
      intro ch hch
      have := (List.mem_filter.mp hch).2
      simpa using this

theorem delete_step_preserves_noarch (df : Nat → Bool) (st : DB × Guild)
    (a : ArchivedTicket) (x : Nat) (h : NoArchAt st.1 x) :
    NoArchAt (delete_archived_step df st a).1 x := by
  intro y hy
  rw [delete_step_archived] at hy
  exact h y (List.mem_filter.mp hy).1

theorem delete_step_preserves_noticket (df : Nat → Bool) (st : DB × Guild)
    (a : ArchivedTicket) (tid : String) (h : NoTicketId st.1 tid) :
    NoTicketId (delete_archived_step df st a).1 tid := by
  intro y hy
  rw [delete_step_tickets] at hy
  exact h y (List.mem_filter.mp hy).1

theorem delete_step_preserves_changone (df : Nat → Bool) (st : DB × Guild)
    (a : ArchivedTicket) (x : Nat) (h : st.2.getChannel x = none) :
    (delete_archived_step df st a).2.getChannel x = none := by
  unfold delete_archived_step
  cases hg : st.2.getChannel a.channel_id with
  | none => exact h
  | some c =>
      dsimp only
      split
      · exact h
      · refine List.find?_eq_none.mpr ?_
        intro ch hch
        exact (List.find?_eq_none.mp h) ch (List.mem_filter.mp hch).1

theorem delete_step_preserves_arch_mem (df : Nat → Bool) (st : DB × Guild)
    (a : ArchivedTicket) (y : ArchivedTicket) (hy : y ∈ st.1.archived)
    (hne : y.channel_id ≠ a.channel_id) :
    y ∈ (delete_archived_step df st a).1.archived := by
  rw [delete_step_archived]
  exact List.mem_filter.mpr ⟨hy, by simpa using hne⟩

theorem delete_fold_preserves (df : Nat → Bool) :
    ∀ (due : List ArchivedTicket) (st : DB × Guild),
      (∀ x, NoArchAt st.1 x →
        NoArchAt (due.foldl (delete_archived_step df) st).1 x) ∧
      (∀ tid, NoTicketId st.1 tid →
        NoTicketId (due.foldl (delete_archived_step df) st).1 tid) ∧
      (∀ x, st.2.getChannel x = none →
        (due.foldl (delete_archived_step df) st).2.getChannel x = none) := by
  intro due
  induction due with
  | nil => intro st; exact ⟨fun x h => h, fun tid h => h, fun x h => h⟩
  | cons a rest ih =>
      intro st
      obtain ⟨ih1, ih2, ih3⟩ := ih (delete_archived_step df st a)
      rw [List.foldl_cons]
      refine ⟨?_, ?_, ?_⟩
      · exact fun x h => ih1 x (delete_step_preserves_noarch df st a x h)
      · exact fun tid h => ih2 tid (delete_step_preserves_noticket df st a tid h)
      · exact fun x h => ih3 x (delete_step_preserves_changone df st a x h)

theorem delete_fold_spec (df : Nat → Bool) :
    ∀ (due : List ArchivedTicket) (st : DB × Guild),
      (∀ a ∈ due,
        NoArchAt (due.foldl (delete_archived_step df) st).1 a.channel_id ∧
        NoTicketId (due.foldl (delete_archived_step df) st).1 a.ticket_id ∧
        ((∀ c, df c = false) →
          (due.foldl (delete_archived_step df) st).2.getChannel a.channel_id = none)) ∧
      (∀ y ∈ st.1.archived, (∀ a ∈ due, y.channel_id ≠ a.channel_id) →
        y ∈ (due.foldl (delete_archived_step df) st).1.archived) := by
  intro due
  induction due with
  | nil =>
      intro st
      exact ⟨fun a ha => absurd ha (List.not_mem_nil a), fun y hy _ => hy⟩
  | cons a rest ih =>
      intro st
      obtain ⟨ih1, ih2⟩ := ih (delete_archived_step df st a)
      obtain ⟨ihp1, ihp2, ihp3⟩ := delete_fold_preserves df rest (delete_archived_step df st a)
      rw [List.foldl_cons]
      constructor
      · intro b hb
        rcases List.mem_cons.mp hb with rfl | hbr
        · obtain ⟨he1, he2⟩ := delete_step_establishes df st b
          refine ⟨ihp1 _ he1, ihp2 _ he2, ?_⟩
          intro hdf
          exact ihp3 _ (delete_step_chan_gone df st b hdf)
        · exact ih1 b hbr
      · intro y hy hall
        have hya : y.channel_id ≠ a.channel_id := hall a (List.mem_cons_self a rest)
        refine ih2 y (delete_step_preserves_arch_mem df st a y hy hya) ?_
        exact fun b hb => hall b (List.mem_cons_of_mem a hb)

/-! ### C6 -/

/-- C6: one run of the archive-deletion sweep removes, for every archived row
whose `delete_at` has passed, both the `archived_tickets` row (by channel id)
and the `tickets` row (by ticket id), and — when no platform deletion error
occurs — the channel itself is gone afterwards whether or not it still
existed (absence is tolerated).  Every archived row whose `delete_at` is
still in the future is left in place untouched. -/
theorem C6_archive_deletion_sweep (db : DB) (g : Guild) (df : Nat → Bool) (now : Nat)
    (hnd : (db.archived.map ArchivedTicket.channel_id).Nodup) :
    (∀ a ∈ db.archived, a.delete_at ≤ now →
      NoArchAt (delete_archived_tickets db g df now).1 a.channel_id ∧
      NoTicketId (delete_archived_tickets db g df now).1 a.ticket_id ∧
      ((∀ c, df c = false) →
        (delete_archived_tickets db g df now).2.getChannel a.channel_id = none)) ∧
    (∀ a ∈ db.archived, ¬(a.delete_at ≤ now) →
      a ∈ (delete_archived_tickets db g df now).1.archived) := by
  have hspec := delete_fold_spec df
    (db.archived.filter (fun a => decide (a.delete_at ≤ now))) (db, g)
  constructor
  · intro a ha hdue
    exact hspec.1 a (List.mem_filter.mpr ⟨ha, decide_eq_true hdue⟩)
  · intro a ha hnot
    refine hspec.2 a ha ?_
    intro b hb heq
    obtain ⟨hbmem, hbdec⟩ := List.mem_filter.mp hb
    have hab : a = b := List.inj_on_of_nodup_map hnd ha hbmem heq
    rw [hab] at hnot
    exact hnot (of_decide_eq_true hbdec)

/-- Archived row due for deletion (delete_at 3 ≤ now 5). -/
def archDue : ArchivedTicket := ⟨10, "AAAA0000", 3⟩

/-- Archived row not yet due (delete_at 9 > now 5). -/
def archLater : ArchivedTicket := ⟨11, "BBBB1111", 9⟩

def dbC6 : DB := ⟨[], [rowClosed, rowOpenB], [], [], [], [archDue, archLater]⟩

theorem C6_witness :
    archLater ∈ (delete_archived_tickets dbC6 gC3 (fun _ => false) 5).1.archived ∧
    (delete_archived_tickets dbC6 gC3 (fun _ => false) 5).2.getChannel 10 = none :=
  ⟨(C6_archive_deletion_sweep dbC6 gC3 (fun _ => false) 5 (by decide)).2 archLater
    (by decide) (by decide),
   ((C6_archive_deletion_sweep dbC6 gC3 (fun _ => false) 5 (by decide)).1 archDue
    (by decide) (by decide)).2.2 (fun c => rfl)⟩

/-! ### Startup-reconciliation helper lemmas (C7) -/

theorem views_step_none (g : Guild) (st : RestoreState) (s : TicketSetup)
    (h : g.getChannel s.channel_id = none) : restore_views_step g st s = st := by
  unfold restore_views_step
  rw [h]

theorem views_step_notFound (g : Guild) (st : RestoreState) (s : TicketSetup) (c : Chan)
    (hc : g.getChannel s.channel_id = some c)
    (hf : st.w.fetch s.channel_id s.message_id = FetchResult.notFound) :
    (restore_views_step g st s).db.setups =
      st.db.setups.filter (fun r => !(r.channel_id == s.channel_id)) ∧
    (restore_views_step g st s).edits = st.edits := by
  unfold restore_views_step
  rw [hc]
  dsimp only
  rw [hf]
  exact ⟨rfl, rfl⟩

theorem views_step_found (g : Guild) (st : RestoreState) (s : TicketSetup) (c : Chan)
    (b : Bool) (hc : g.getChannel s.channel_id = some c)
    (hf : st.w.fetch s.channel_id s.message_id = FetchResult.found b) :
    (restore_views_step g st s).edits = st.edits ++ [(s.channel_id, s.message_id)] ∧
    (restore_views_step g st s).db = st.db := by
  unfold restore_views_step
  rw [hc]
  dsimp only
  rw [hf]
  exact ⟨rfl, rfl⟩

/-- A step for pointer `s` does not affect another channel `x`: its fetch
results, its setup rows, and it contributes no edit there. -/
theorem views_step_other (g : Guild) (st : RestoreState) (s : TicketSetup) (x : Nat)
    (hne : s.channel_id ≠ x) :
    (∀ m, (restore_views_step g st s).w.fetch x m = st.w.fetch x m) ∧
    (∀ r ∈ st.db.setups, r.channel_id = x → r ∈ (restore_views_step g st s).db.setups) ∧
    (∀ pr ∈ (restore_views_step g st s).edits, pr ∈ st.edits ∨ pr.1 ≠ x) := by
  have hxf : (x == s.channel_id) = false := beq_eq_false_iff_ne.mpr (Ne.symm hne)
  unfold restore_views_step
  cases hg : g.getChannel s.channel_id with
  | none => exact ⟨fun m => rfl, fun r hr _ => hr, fun pr hpr => Or.inl hpr⟩
  | some c =>
      cases hf : st.w.fetch s.channel_id s.message_id with
      | notFound =>
          refine ⟨fun m => rfl, ?_, fun pr hpr => Or.inl hpr⟩
          intro r hr hrx
          exact List.mem_filter.mpr ⟨hr, by rw [hrx]; simpa using Ne.symm hne⟩
      | found b =>
          refine ⟨?_, fun r hr _ => hr, ?_⟩
          · intro m
            show (if x == s.channel_id && m == s.message_id then FetchResult.found true
                else st.w.fetch x m) = st.w.fetch x m
            rw [if_neg (by rw [hxf]; simp)]
          · intro pr hpr
            rcases List.mem_append.mp hpr with h | h
            · exact Or.inl h
            · right
              have hpr1 : pr = (s.channel_id, s.message_id) := by simpa using h
              rw [hpr1]
              exact hne
      | err => exact ⟨fun m => rfl, fun r hr _ => hr, fun pr hpr => Or.inl hpr⟩

theorem views_step_sub (g : Guild) (st : RestoreState) (s : TicketSetup) :
    ∀ r ∈ (restore_views_step g st s).db.setups, r ∈ st.db.setups := by
  unfold restore_views_step
  cases hg : g.getChannel s.channel_id with
  | none => exact fun r hr => hr
  | some c =>
      cases hf : st.w.fetch s.channel_id s.message_id with
      | notFound => exact fun r hr => (List.mem_filter.mp hr).1
      | found b => exact fun r hr => hr
      | err => exact fun r hr => hr

theorem views_step_edits_mono (g : Guild) (st : RestoreState) (s : TicketSetup)
    (pr : Nat × Nat) (h : pr ∈ st.edits) : pr ∈ (restore_views_step g st s).edits := by
  unfold restore_views_step
  cases hg : g.getChannel s.channel_id with
  | none => exact h
  | some c =>
      cases hf : st.w.fetch s.channel_id s.message_id with
      | notFound => exact h
      | found b => exact List.mem_append_left _ h
      | err => exact h

theorem views_step_deletes (g : Guild) (st : RestoreState) (s : TicketSetup) (c : Chan)
    (hc : g.getChannel s.channel_id = some c)
    (hf : st.w.fetch s.channel_id s.message_id = FetchResult.notFound) :
    ∀ r ∈ (restore_views_step g st s).db.setups, r.channel_id ≠ s.channel_id := by
  intro r hr
  rw [(views_step_notFound g st s c hc hf).1] at hr
  have := (List.mem_filter.mp hr).2
  simpa using this

theorem views_fold_sub (g : Guild) :
    ∀ (pend : List TicketSetup) (st : RestoreState),
      ∀ r ∈ (pend.foldl (restore_views_step g) st).db.setups, r ∈ st.db.setups := by
  intro pend
  induction pend with
  | nil => exact fun st r hr => hr
  | cons s rest ih =>
      intro st r hr
      rw [List.foldl_cons] at hr
      exact views_step_sub g st s r (ih _ r hr)

theorem views_fold_edits_mono (g : Guild) :
    ∀ (pend : List TicketSetup) (st : RestoreState) (pr : Nat × Nat),
      pr ∈ st.edits → pr ∈ (pend.foldl (restore_views_step g) st).edits := by
  intro pend
  induction pend with
  | nil => exact fun st pr h => h
  | cons s rest ih =>
      intro st pr h
      rw [List.foldl_cons]
      exact ih _ pr (views_step_edits_mono g st s pr h)

/-- The whole startup fold does not affect a channel none of the pending
pointers lives in. -/
theorem views_fold_other (g : Guild) :
    ∀ (pend : List TicketSetup) (st : RestoreState) (x : Nat),
      (∀ s ∈ pend, s.channel_id ≠ x) →
      (∀ m, (pend.foldl (restore_views_step g) st).w.fetch x m = st.w.fetch x m) ∧
      (∀ r ∈ st.db.setups, r.channel_id = x →
        r ∈ (pend.foldl (restore_views_step g) st).db.setups) ∧
      (∀ pr ∈ (pend.foldl (restore_views_step g) st).edits,
        pr ∈ st.edits ∨ pr.1 ≠ x) := by
  intro pend
  induction pend with
  | nil => exact fun st x _ => ⟨fun m => rfl, fun r hr _ => hr, fun pr hpr => Or.inl hpr⟩
  | cons s rest ih =>
      intro st x hall
      have hs : s.channel_id ≠ x := hall s (List.mem_cons_self s rest)
      have hrest : ∀ s' ∈ rest, s'.channel_id ≠ x := fun s' hs' =>
        hall s' (List.mem_cons_of_mem s hs')
      obtain ⟨hstep1, hstep2, hstep3⟩ := views_step_other g st s x hs
      obtain ⟨ih1, ih2, ih3⟩ := ih (restore_views_step g st s) x hrest
      rw [List.foldl_cons]
      refine ⟨?_, ?_, ?_⟩
      · intro m
        rw [ih1 m, hstep1 m]
      · intro r hr hrx
        exact ih2 r (hstep2 r hr hrx) hrx
      · intro pr hpr
        rcases ih3 pr hpr with h | h
        · exact hstep3 pr h
        · exact Or.inr h

/-- Per-pointer behavior of the startup reconciliation fold (pointers have
pairwise distinct channel ids — the table's primary key). -/
theorem views_fold_pointer (g : Guild) :
    ∀ (pend : List TicketSetup) (st : RestoreState),
      (pend.map TicketSetup.channel_id).Nodup →
      ∀ s ∈ pend,
        (g.getChannel s.channel_id = none →
          (∀ r ∈ st.db.setups, r.channel_id = s.channel_id →
            r ∈ (pend.foldl (restore_views_step g) st).db.setups) ∧
          (∀ pr ∈ (pend.foldl (restore_views_step g) st).edits,
            pr ∈ st.edits ∨ pr.1 ≠ s.channel_id)) ∧
        (∀ c, g.getChannel s.channel_id = some c →
          st.w.fetch s.channel_id s.message_id = FetchResult.notFound →
          (∀ r ∈ (pend.foldl (restore_views_step g) st).db.setups,
            r.channel_id ≠ s.channel_id)) ∧
        (∀ c b, g.getChannel s.channel_id = some c →
          st.w.fetch s.channel_id s.message_id = FetchResult.found b →
          (s.channel_id, s.message_id) ∈ (pend.foldl (restore_views_step g) st).edits) := by
  intro pend
  induction pend with
  | nil => intro st _ s hs; exact absurd hs (List.not_mem_nil s)
  | cons s₀ rest ih =>
      intro st hnd s hs
      rw [List.map_cons, List.nodup_cons] at hnd
      have hdistinct : ∀ s' ∈ rest, s'.channel_id ≠ s₀.channel_id := by
        intro s' hs' heq
        exact hnd.1 (heq ▸ List.mem_map_of_mem TicketSetup.channel_id hs')
      rw [List.foldl_cons]
      rcases List.mem_cons.mp hs with rfl | hsrest
      · -- the head pointer itself
        refine ⟨?_, ?_, ?_⟩
        · intro hnone
          rw [views_step_none g st s hnone]
          obtain ⟨_, h2, h3⟩ := views_fold_other g rest st s.channel_id
            (fun s' hs' => hdistinct s' hs')
          exact ⟨h2, h3⟩
        · intro c hc hf
          intro r hr
          exact views_step_deletes g st s c hc hf r (views_fold_sub g rest _ r hr)
        · intro c b hc hf
          apply views_fold_edits_mono
          rw [(views_step_found g st s c b hc hf).1]
          exact List.mem_append_right _ (by simp)
      · -- a pointer further down: the head step does not touch its channel
        have hne : s₀.channel_id ≠ s.channel_id := fun heq =>
          hdistinct s hsrest heq.symm
        obtain ⟨ho1, ho2, ho3⟩ := views_step_other g st s₀ s.channel_id hne
        obtain ⟨ihA, ihB, ihC⟩ := ih (restore_views_step g st s₀) hnd.2 s hsrest
        refine ⟨?_, ?_, ?_⟩
        · intro hnone
          obtain ⟨hA1, hA2⟩ := ihA hnone
          refine ⟨?_, ?_⟩
          · intro r hr hrx
            exact hA1 r (ho2 r hr hrx) hrx
          · intro pr hpr
            rcases hA2 pr hpr with h | h
            · exact ho3 pr h
            · exact Or.inr h
        · intro c hc hf
          exact ihB c hc (by rw [ho1 s.message_id]; exact hf)
        · intro c b hc hf
          exact ihC c b hc (by rw [ho1 s.message_id]; exact hf)

theorem creation_step_found_true (g : Guild) (st : RestoreState) (s : TicketSetup)
    (c : Chan) (hc : g.getChannel s.channel_id = some c)
    (hf : st.w.fetch s.channel_id s.message_id = FetchResult.found true) :
    restore_creation_step g st s = st := by
  unfold restore_creation_step
  rw [hc]
  dsimp only
  rw [hf]

theorem creation_step_other (g : Guild) (st : RestoreState) (s : TicketSetup) (x : Nat)
    (hne : s.channel_id ≠ x) :
    (∀ m, (restore_creation_step g st s).w.fetch x m = st.w.fetch x m) ∧
    (∀ r ∈ st.db.setups, r.channel_id = x →
      r ∈ (restore_creation_step g st s).db.setups) ∧
    (∀ pr ∈ (restore_creation_step g st s).edits, pr ∈ st.edits ∨ pr.1 ≠ x) := by
  have hxf : (x == s.channel_id) = false := beq_eq_false_iff_ne.mpr (Ne.symm hne)
  unfold restore_creation_step
  cases hg : g.getChannel s.channel_id with
  | none => exact ⟨fun m => rfl, fun r hr _ => hr, fun pr hpr => Or.inl hpr⟩
  | some c =>
      cases hf : st.w.fetch s.channel_id s.message_id with
      | notFound =>
          refine ⟨fun m => rfl, ?_, fun pr hpr => Or.inl hpr⟩
          intro r hr hrx
          exact List.mem_filter.mpr ⟨hr, by rw [hrx]; simpa using Ne.symm hne⟩
      | found b =>
          cases b with
          | true => exact ⟨fun m => rfl, fun r hr _ => hr, fun pr hpr => Or.inl hpr⟩
          | false =>
              refine ⟨?_, fun r hr _ => hr, ?_⟩
              · intro m
                show (if x == s.channel_id && m == s.message_id then FetchResult.found true
                    else st.w.fetch x m) = st.w.fetch x m
                rw [if_neg (by rw [hxf]; simp)]
              · intro pr hpr
                rcases List.mem_append.mp hpr with h | h
                · exact Or.inl h
                · right
                  have hpr1 : pr = (s.channel_id, s.message_id) := by simpa using h
                  rw [hpr1]
                  exact hne
      | err => exact ⟨fun m => rfl, fun r hr _ => hr, fun pr hpr => Or.inl hpr⟩

theorem creation_fold_other (g : Guild) :
    ∀ (pend : List TicketSetup) (st : RestoreState) (x : Nat),
      (∀ s ∈ pend, s.channel_id ≠ x) →
      (∀ m, (pend.foldl (restore_creation_step g) st).w.fetch x m = st.w.fetch x m) ∧
      (∀ r ∈ st.db.setups, r.channel_id = x →
        r ∈ (pend.foldl (restore_creation_step g) st).db.setups) ∧
      (∀ pr ∈ (pend.foldl (restore_creation_step g) st).edits,
        pr ∈ st.edits ∨ pr.1 ≠ x) := by
  intro pend
  induction pend with
  | nil => exact fun st x _ => ⟨fun m => rfl, fun r hr _ => hr, fun pr hpr => Or.inl hpr⟩
  | cons s rest ih =>
      intro st x hall
      have hs : s.channel_id ≠ x := hall s (List.mem_cons_self s rest)
      have hrest : ∀ s' ∈ rest, s'.channel_id ≠ x := fun s' hs' =>
        hall s' (List.mem_cons_of_mem s hs')
      obtain ⟨hstep1, hstep2, hstep3⟩ := creation_step_other g st s x hs
      obtain ⟨ih1, ih2, ih3⟩ := ih (restore_creation_step g st s) x hrest
      rw [List.foldl_cons]
      refine ⟨?_, ?_, ?_⟩
      · intro m
        rw [ih1 m, hstep1 m]
      · intro r hr hrx
        exact ih2 r (hstep2 r hr hrx) hrx
      · intro pr hpr
        rcases ih3 pr hpr with h | h
        · exact hstep3 pr h
        · exact Or.inr h

/-- A pointer whose message still has its components is left alone by
`restore_ticket_creation_view`: its row survives and no edit targets its
channel. -/
theorem creation_fold_pointer (g : Guild) :
    ∀ (pend : List TicketSetup) (st : RestoreState),
      (pend.map TicketSetup.channel_id).Nodup →
      ∀ s ∈ pend, ∀ c, g.getChannel s.channel_id = some c →
        st.w.fetch s.channel_id s.message_id = FetchResult.found true →
        (∀ r ∈ st.db.setups, r.channel_id = s.channel_id →
          r ∈ (pend.foldl (restore_creation_step g) st).db.setups) ∧
        (∀ pr ∈ (pend.foldl (restore_creation_step g) st).edits,
          pr ∈ st.edits ∨ pr.1 ≠ s.channel_id) := by
  intro pend
  induction pend with
  | nil => intro st _ s hs; exact absurd hs (List.not_mem_nil s)
  | cons s₀ rest ih =>
      intro st hnd s hs c hc hf
      rw [List.map_cons, List.nodup_cons] at hnd
      have hdistinct : ∀ s' ∈ rest, s'.channel_id ≠ s₀.channel_id := by
        intro s' hs' heq
        exact hnd.1 (heq ▸ List.mem_map_of_mem TicketSetup.channel_id hs')
      rw [List.foldl_cons]
      rcases List.mem_cons.mp hs with rfl | hsrest
      · rw [creation_step_found_true g st s c hc hf]
        obtain ⟨_, h2, h3⟩ := creation_fold_other g rest st s.channel_id
          (fun s' hs' => hdistinct s' hs')
        exact ⟨h2, h3⟩
      · have hne : s₀.channel_id ≠ s.channel_id := fun heq => hdistinct s hsrest heq.symm
        obtain ⟨ho1, ho2, ho3⟩ := creation_step_other g st s₀ s.channel_id hne
        obtain ⟨ihA, ihB⟩ := ih (restore_creation_step g st s₀) hnd.2 s hsrest c hc
          (by rw [ho1 s.message_id]; exact hf)
        refine ⟨?_, ?_⟩
        · intro r hr hrx
          exact ihA r (ho2 r hr hrx) hrx
        · intro pr hpr
          rcases ihB pr hpr with h | h
          · exact ho3 pr h
          · exact Or.inr h

/-! ### C7 -/

/-- C7 (amended): startup reconciliation (`restore_ticket_views`) behaves as
follows for each stored pointer: if the pointer's channel is unknown to the
bot, the pointer is KEPT (not pruned) and nothing is edited; if the channel
is known and the message fetch 404s, the pointer row is deleted; if the
message is fetched, the view is re-attached UNCONDITIONALLY — an edit is
performed even when the message still has its components.  The
message-has-components check exists only in `restore_ticket_creation_view`
(run after each manual close), which does leave an already-correct message
unedited and keeps its pointer. -/
theorem C7_startup_reconciliation (g : Guild) (db : DB) (w : MsgWorld)
    (hnd : (db.setups.map TicketSetup.channel_id).Nodup) :
    (∀ s ∈ db.setups, g.getChannel s.channel_id = none →
      s ∈ (restore_ticket_views g db w).db.setups ∧
      (s.channel_id, s.message_id) ∉ (restore_ticket_views g db w).edits) ∧
    (∀ s ∈ db.setups, ∀ c, g.getChannel s.channel_id = some c →
      w.fetch s.channel_id s.message_id = FetchResult.notFound →
      ∀ r ∈ (restore_ticket_views g db w).db.setups, r.channel_id ≠ s.channel_id) ∧
    (∀ s ∈ db.setups, ∀ c b, g.getChannel s.channel_id = some c →
      w.fetch s.channel_id s.message_id = FetchResult.found b →
      (s.channel_id, s.message_id) ∈ (restore_ticket_views g db w).edits) ∧
    (∀ s ∈ db.setups, ∀ c, g.getChannel s.channel_id = some c →
      w.fetch s.channel_id s.message_id = FetchResult.found true →
      s ∈ (restore_ticket_creation_view g db w).db.setups ∧
      (s.channel_id, s.message_id) ∉ (restore_ticket_creation_view g db w).edits) := by
  refine ⟨?_, ?_, ?_, ?_⟩
  · intro s hs hnone
    obtain ⟨h1, h2⟩ := (views_fold_pointer g db.setups ⟨db, w, []⟩ hnd s hs).1 hnone
    refine ⟨h1 s hs rfl, ?_⟩
    intro hmem
    rcases h2 _ hmem with h | h
    · exact absurd h (List.not_mem_nil _)
    · exact h rfl
  · intro s hs c hc hf
    exact (views_fold_pointer g db.setups ⟨db, w, []⟩ hnd s hs).2.1 c hc hf
  · intro s hs c b hc hf
    exact (views_fold_pointer g db.setups ⟨db, w, []⟩ hnd s hs).2.2 c b hc hf
  · intro s hs c hc hf
    obtain ⟨h1, h2⟩ := creation_fold_pointer g db.setups ⟨db, w, []⟩ hnd s hs c hc hf
    refine ⟨h1 s hs rfl, ?_⟩
    intro hmem
    rcases h2 _ hmem with h | h
    · exact absurd h (List.not_mem_nil _)
    · exact h rfl

def setup5 : TicketSetup := ⟨5, 100⟩

def setup6 : TicketSetup := ⟨6, 200⟩

def chan5 : Chan := ⟨5, none, true, []⟩

def gC7 : Guild := ⟨[], [], [chan5]⟩

def dbC7 : DB := ⟨[], [], [], [], [setup5, setup6], []⟩

/-- Message (5,100) exists and still has its components; everything else is
gone. -/
def wC7 : MsgWorld :=
  ⟨fun c m => if c == 5 && m == 100 then FetchResult.found true else FetchResult.notFound⟩

/-- C7 counterexample: at startup, the pointer to message (5,100), which
still has its view, is edited anyway (the claim says no edit is performed);
and the pointer to channel 6, whose channel — and hence message — no longer
exists, is kept instead of being deleted. -/
theorem C7_counterexample :
    wC7.fetch 5 100 = FetchResult.found true ∧
    (restore_ticket_views gC7 dbC7 wC7).edits = [(5, 100)] ∧
    gC7.getChannel 6 = none ∧
    setup6 ∈ (restore_ticket_views gC7 dbC7 wC7).db.setups := by
  decide

theorem C7_witness :
    setup5 ∈ (restore_ticket_creation_view gC7 dbC7 wC7).db.setups ∧
    (5, 100) ∉ (restore_ticket_creation_view gC7 dbC7 wC7).edits :=
  (C7_startup_reconciliation gC7 dbC7 wC7 (by decide)).2.2.2 setup5 (by decide)
    chan5 (by decide) rfl

end TicketBot
